import Mathlib

/-!
# Verification of the trip-planning core (config resolution, POI filtering,
# route ordering, day scheduling, cost aggregation, trip orchestration)

Shallow embedding of the Python sources:
  `src/config.py`, `src/data/packages.py`, `src/services/poi_service.py`,
  `src/services/ors_service.py`, `src/services/scheduler.py`,
  `src/services/cost_service.py`, `src/services/planner.py`.

Modelling conventions:
* Python floats are modelled as exact rationals (`ℚ`); `round(x, 2)` and the
  `:.0f` format are modelled as round-half-to-even at the matching precision,
  which is Python's rounding mode.
* Clock strings ("HH:MM") are modelled as minutes after midnight (`ℤ`); a
  string the Python `strptime` calls cannot parse is the `TimeStr.bad`
  constructor, so parse failure is observable.
* Loosely typed Firestore numeric fields are modelled by `PNum`
  (absent / numeric / unparseable); `float(x or 0)`-style conversions become
  `pyFloat0`, which returns `none` exactly where Python raises `ValueError`
  (or `TypeError`).
* Python code that can raise on the modelled path returns `Option`;
  `none` models an uncaught exception.
* The external routing client is absent in the model (`ors_client = None`),
  so the travel-matrix provider always takes its deterministic fallback path,
  parameterised by the great-circle distance function `D` (the transcendental
  haversine itself is kept abstract: every theorem quantifies over `D`).
* Firestore collections are modelled as a `List POI` catalog parameter;
  Python sets whose only observed operations are membership and insertion
  are modelled as lists.
-/

namespace TravelPlanner

/-- A loosely-typed numeric Firestore field: missing, a number, or a string
that does not parse as a number. A numeric string that parses is identified
with its value, an empty string with `absent` (both behave identically under
the `x or 0` / `float` treatment in the source). -/
inductive PNum where
  | absent : PNum
  | num : ℚ → PNum
  | junk : PNum
deriving DecidableEq, Repr

/-- `float(d.get(key, 0) or 0)`: a missing field (or falsy value) becomes `0`,
a number is itself, an unparseable string raises (`none`). -/
def pyFloat0 : PNum → Option ℚ
  | .absent => some 0
  | .num q => some q
  | .junk => none

/-- Python `int` truncation toward zero on a rational. -/
def pyTrunc (q : ℚ) : ℤ := Int.tdiv q.num q.den

/-- `int(d.get("duration_minutes", 60) or 60)`: missing or falsy (zero)
becomes 60, a number is truncated, an unparseable string raises. -/
def pyInt60 : PNum → Option ℤ
  | .absent => some 60
  | .num q => if q = 0 then some 60 else some (pyTrunc q)
  | .junk => none

/-- A clock-time string: either a parseable "HH:MM"-style value, recorded as
minutes after midnight, or a string every tried format rejects. -/
inductive TimeStr where
  | hm : ℤ → TimeStr
  | bad : TimeStr
deriving DecidableEq, Repr

/-- `_parse_time` of `poi_service.py` (and `_parse` of `scheduler.py`):
yields the minutes value, or `none` where Python fails/raises. -/
def parse_time : TimeStr → Option ℤ
  | .hm m => some m
  | .bad => none

/-- Round half to even to an integer (the rounding of Python's `round` and
of the `:.0f` format). -/
def roundHalfEven (q : ℚ) : ℤ :=
  let f := ⌊q⌋
  let r := q - f
  if r < 1/2 then f
  else if 1/2 < r then f + 1
  else if f % 2 = 0 then f else f + 1

/-- Python `round(x, 2)` on the exact-rational model. -/
def round2 (q : ℚ) : ℚ := (roundHalfEven (q * 100) : ℚ) / 100

/-- The pace tier (`Literal["relaxed", "normal", "packed"]` in
`models/schemas.py`). -/
inductive Pace where
  | relaxed : Pace
  | normal : Pace
  | packed : Pace
deriving DecidableEq, Repr

/-! ## `src/config.py` — static tables -/

/-- One budget band of `BUDGET_BANDS` in `config.py`. -/
structure Band where
  daily_budget : ℚ
  max_entry_fee : ℚ
  default_transport : String
  pace : Pace
  stops_per_day : ℕ × ℕ
deriving DecidableEq, Repr

/-- `BUDGET_BANDS` of `config.py` as a partial map. -/
def BUDGET_BANDS : String → Option Band
  | "budget" => some ⟨800, 100, "bus", .relaxed, (2, 3)⟩
  | "economy" => some ⟨1500, 300, "auto", .normal, (3, 5)⟩
  | "premium" => some ⟨3500, 1000, "cab", .packed, (5, 7)⟩
  | _ => none

/-- One row of `TRANSPORT_RATES` in `config.py` (base fee, per-km rate). -/
structure Rate where
  base : ℚ
  per_km : ℚ
deriving DecidableEq, Repr

/-- `TRANSPORT_RATES` of `config.py`. -/
def TRANSPORT_RATES : String → Option Rate
  | "bus" => some ⟨5, 3/2⟩
  | "metro" => some ⟨10, 5/2⟩
  | "auto" => some ⟨30, 18⟩
  | "cab" => some ⟨50, 22⟩
  | "self_drive" => some ⟨0, 6⟩
  | _ => none

/-- `TRANSPORT_SPEED` of `config.py` (km/h). -/
def TRANSPORT_SPEED : String → Option ℚ
  | "bus" => some 15
  | "metro" => some 35
  | "auto" => some 20
  | "cab" => some 25
  | "self_drive" => some 30
  | _ => none

/-- `ACTIVITY_EXTRAS` of `config.py` (INR surcharges). -/
def ACTIVITY_EXTRAS : String → Option ℚ
  | "lion_safari" => some 300
  | "water_rides" => some 400
  | "elephant_ride" => some 200
  | "planetarium_shows" => some 40
  | "horseback_riding" => some 150
  | "drive_in" => some 200
  | "bowling" => some 250
  | "battery_vehicle" => some 50
  | _ => none

/-! ## `src/data/packages.py` — preset packages -/

/-- The `defaults` sub-dict of one package in `data/packages.py`. -/
structure PackageDefaults where
  max_entry_fee : ℚ
  min_rating : ℚ
  transport_mode : String
  num_hours : ℕ
  budget_per_day : ℚ
  pace : Pace
  start_time : TimeStr
  end_time : TimeStr
deriving DecidableEq, Repr

/-- One package of `PACKAGES` in `data/packages.py`. -/
structure Package where
  name : String
  icon : String
  theme : String
  category_primary : List String
  tags : List String
  activities : List String
  defaults : PackageDefaults
deriving DecidableEq, Repr

/-- `PACKAGES` of `data/packages.py` as a partial map. -/
def PACKAGES : String → Option Package
  | "pkg-heritage" => some
      { name := "Heritage & History", icon := "🏛️", theme := "heritage"
        category_primary := ["heritage", "temple", "museum"]
        tags := ["fort", "colonial", "dravidian", "8th_century", "british"]
        activities := ["museum_visit", "history_tour", "photography", "architecture"]
        defaults := ⟨150, 43/10, "auto", 8, 1200, .normal, .hm (9*60), .hm (20*60)⟩ }
  | "pkg-family" => some
      { name := "Family Fun Day", icon := "👨‍👩‍👧", theme := "family"
        category_primary := ["beach", "park", "museum", "attraction"]
        tags := ["family", "zoo", "amusement", "wildlife", "science"]
        activities := ["wildlife", "water_rides", "planetarium_shows", "safari"]
        defaults := ⟨500, 21/5, "cab", 8, 2000, .normal, .hm (9*60), .hm (19*60)⟩ }
  | "pkg-budget" => some
      { name := "Budget Explorer", icon := "💰", theme := "budget"
        category_primary := ["beach", "temple", "attraction", "heritage"]
        tags := ["free", "beach", "urban"]
        activities := ["jogging", "prayer", "photography", "architecture"]
        defaults := ⟨0, 4, "bus", 6, 400, .relaxed, .hm (8*60), .hm (18*60)⟩ }
  | "pkg-spiritual" => some
      { name := "Spiritual Trail", icon := "🛕", theme := "spiritual"
        category_primary := ["temple"]
        tags := ["hindu", "shiva", "vishnu", "divya_desam", "heritage"]
        activities := ["prayer", "utsavam", "architecture", "heritage"]
        defaults := ⟨50, 22/5, "auto", 6, 700, .relaxed, .hm (6*60), .hm (21*60)⟩ }
  | "pkg-beach" => some
      { name := "Coastal Escape", icon := "🏖️", theme := "beach"
        category_primary := ["beach", "attraction"]
        tags := ["beach", "sunset", "relaxation", "ecr", "drive_in"]
        activities := ["relaxation", "food_stalls", "surfing", "movies"]
        defaults := ⟨300, 21/5, "self_drive", 6, 900, .relaxed, .hm (15*60), .hm (23*60)⟩ }
  | "pkg-shopping" => some
      { name := "Shop & Dine", icon := "🛍️", theme := "shopping"
        category_primary := ["attraction"]
        tags := ["shopping", "mall", "retail", "jewellery", "street_food"]
        activities := ["shopping", "street_food", "dining", "bargaining"]
        defaults := ⟨0, 4, "metro", 5, 1500, .packed, .hm (11*60), .hm (22*60)⟩ }
  | _ => none

/-! ## `src/models/schemas.py` — request-side records -/

/-- `PackageOverride` of `models/schemas.py`: every field optional. After
`model_dump()` this is a dict whose keys are always present with possibly
`None` values, which is exactly an `Option` per field. -/
structure Overrides where
  transport_mode : Option String := none
  max_entry_fee : Option ℚ := none
  total_budget : Option ℚ := none
  num_days : Option ℤ := none
  start_time : Option TimeStr := none
  end_time : Option TimeStr := none
  pace : Option Pace := none
  wheelchair_only : Option Bool := none
  extra_activities : Option (List String) := none
deriving DecidableEq, Repr

/-! ## `src/services/poi_service.py` — config resolution -/

/-- `_override(overrides, key, fallback)` of `poi_service.py`:
`v if v is not None else fallback`, i.e. `Option.getD`. -/
def _override {α : Type} (v : Option α) (fallback : α) : α := v.getD fallback

instance : Inhabited Band := ⟨⟨0, 0, "", .normal, (0, 0)⟩⟩

instance : Inhabited Package :=
  ⟨{ name := "", icon := "", theme := "", category_primary := [], tags := []
     activities := []
     defaults := ⟨0, 0, "", 0, 0, .normal, .bad, .bad⟩ }⟩

/-- The resolved planning configuration (the dict built by
`resolve_config`). -/
structure Config where
  name : String
  category_primary : List String
  tags : List String
  activities : List String
  max_entry_fee : ℚ
  min_rating : ℚ
  transport_mode : String
  budget_per_day : ℚ
  pace : Pace
  start_time : TimeStr
  end_time : TimeStr
  wheelchair_only : Bool
  stops_per_day : ℕ × ℕ
deriving DecidableEq, Repr

/-- `resolve_config(package_id, budget_band, overrides)` of
`poi_service.py`, lines 97-122, field for field. -/
def resolve_config (package_id : String) (budget_band : String)
    (overrides : Overrides) : Config :=
  let pkg := (PACKAGES package_id).getD ((PACKAGES "pkg-heritage").getD default)
  let defaults := pkg.defaults
  let band := (BUDGET_BANDS budget_band).getD ((BUDGET_BANDS "economy").getD default)
  { name := pkg.name
    category_primary := pkg.category_primary
    tags := pkg.tags
    activities := pkg.activities ++ (overrides.extra_activities.getD [])
    max_entry_fee := _override overrides.max_entry_fee band.max_entry_fee
    min_rating := 4
    transport_mode := _override overrides.transport_mode band.default_transport
    budget_per_day := _override overrides.total_budget defaults.budget_per_day
    pace := _override overrides.pace band.pace
    start_time := _override overrides.start_time defaults.start_time
    end_time := _override overrides.end_time defaults.end_time
    wheelchair_only := _override overrides.wheelchair_only false
    stops_per_day := band.stops_per_day }

/-! ## `src/services/poi_service.py` — candidate filtering and scoring -/

/-- The `opening_hours` Firestore field as `_is_open_during` observes it:
missing/falsy, a string without a "-", or an open/close pair whose two
halves each either parse or not. -/
inductive OpeningHours where
  | absent : OpeningHours
  | nodash : OpeningHours
  | pair : TimeStr → TimeStr → OpeningHours
deriving DecidableEq, Repr

/-- A catalog POI document, after the `_to_list`/`_to_str` normalisation the
source applies to array-or-comma-string fields (`tags`, `activities`,
`best_time_to_visit`). `poi_id` is the Firestore document id the source
copies into the dict. -/
structure POI where
  poi_id : String
  name : String
  lat : ℚ
  lon : ℚ
  entry_fee : PNum
  rating : PNum
  popularity_score : PNum
  duration_minutes : PNum
  category_primary : String
  tags : List String
  activities : List String
  wheelchair_accessible : Bool
  is_open_24hrs : Bool
  opening_hours : OpeningHours
  address : String
  best_time_to_visit : String
deriving DecidableEq, Repr

/-- `_is_open_during(poi, day_start, day_end)` of `poi_service.py`, lines
42-70: 24-hour flag always passes; missing hours or no "-" pass; any parse
failure passes (fail-open); otherwise the open interval must overlap the
day window. -/
def _is_open_during (poi : POI) (day_start day_end : TimeStr) : Bool :=
  if poi.is_open_24hrs then true
  else
    match poi.opening_hours with
    | .absent => true
    | .nodash => true
    | .pair o c =>
      (do
        let opens ← parse_time o
        let closes ← parse_time c
        let starts ← parse_time day_start
        let ends ← parse_time day_end
        pure (!(decide (closes ≤ starts) || decide (ends ≤ opens)))).getD true

/-- `_tag_score(poi, package_tags)` of `poi_service.py`: how many package
tags occur among the POI's tags. -/
def _tag_score (poi : POI) (package_tags : List String) : ℕ :=
  package_tags.countP (fun t => poi.tags.contains t)

/-- The entry-fee hard filter of `filter_pois` (lines 165-170): drop when
the parsed fee exceeds the maximum, pass on parse failure (fail-open). -/
def feePass (max_fee : ℚ) (poi : POI) : Bool :=
  match pyFloat0 poi.entry_fee with
  | some q => !(decide (max_fee < q))
  | none => true

/-- The rating hard filter of `filter_pois` (lines 172-177): drop when the
parsed rating is below the minimum, pass on parse failure (fail-open). -/
def ratingPass (min_rating : ℚ) (poi : POI) : Bool :=
  match pyFloat0 poi.rating with
  | some q => !(decide (q < min_rating))
  | none => true

/-- The wheelchair hard filter of `filter_pois` (line 180). -/
def wheelchairPass (cfg : Config) (poi : POI) : Bool :=
  !(cfg.wheelchair_only && !poi.wheelchair_accessible)

/-- All hard filters of the `filter_pois` loop, in source order: excluded
ids, entry fee, rating, wheelchair, opening hours. -/
def hard_pass (cfg : Config) (excluded : List String) (poi : POI) : Bool :=
  !(excluded.contains poi.poi_id) &&
  feePass cfg.max_entry_fee poi &&
  ratingPass cfg.min_rating poi &&
  wheelchairPass cfg poi &&
  _is_open_during poi cfg.start_time cfg.end_time

/-- The document loop of `filter_pois` (lines 157-194): split the queried
docs into the primary pool (`passed`: hard filters plus a positive tag score,
or an empty tag requirement) and the fallback pool (`no_tag`), each POI
paired with its `_tag_score`. -/
def classify (cfg : Config) (excluded : List String) :
    List POI → List (POI × ℕ) × List (POI × ℕ)
  | [] => ([], [])
  | poi :: rest =>
    let tl := classify cfg excluded rest
    if hard_pass cfg excluded poi then
      let score := _tag_score poi cfg.tags
      if 0 < score || cfg.tags.isEmpty then ((poi, score) :: tl.1, tl.2)
      else (tl.1, (poi, score) :: tl.2)
    else tl

/-- Key computation of the relevance sort (lines 201-205): Python's
`list.sort` evaluates the key for every element first, and the key's
`float(...)` calls are unguarded, so an unparseable `popularity_score` or
`rating` raises (`none`). -/
def addKeys : List (POI × ℕ) → Option (List (POI × ℕ × ℚ × ℚ))
  | [] => some []
  | (p, s) :: rest => do
      let pop ← pyFloat0 p.popularity_score
      let r ← pyFloat0 p.rating
      let tl ← addKeys rest
      pure ((p, s, pop, r) :: tl)

/-- Stable insertion for `pySort`: the element being inserted precedes the
first already-placed element it compares ≤ to. -/
def pyInsert {α : Type} (le : α → α → Bool) (x : α) : List α → List α
  | [] => [x]
  | y :: ys => if le x y then x :: y :: ys else y :: pyInsert le x ys

/-- Python's `list.sort` is a stable ascending sort; only its permutation
and stability properties are observed here, so it is modelled by a stable
insertion sort. -/
def pySort {α : Type} (le : α → α → Bool) : List α → List α
  | [] => []
  | x :: xs => pyInsert le x (pySort le xs)

/-- `pyInsert` permutes the element onto the list. -/
theorem pyInsert_perm {α : Type} (le : α → α → Bool) (x : α) (l : List α) :
    (pyInsert le x l).Perm (x :: l) := by
  induction l with
  | nil => exact List.Perm.refl _
  | cons y ys ih =>
    rw [pyInsert]
    by_cases h : le x y = true
    · rw [if_pos h]
    · rw [if_neg h]
      exact (List.Perm.cons y ih).trans (List.Perm.swap x y ys)

/-- `pySort` permutes its input. -/
theorem pySort_perm {α : Type} (le : α → α → Bool) (l : List α) :
    (pySort le l).Perm l := by
  induction l with
  | nil => exact List.Perm.refl _
  | cons x xs ih =>
    rw [pySort]
    exact (pyInsert_perm le x (pySort le xs)).trans (List.Perm.cons x ih)

/-- The sort key comparison: ascending lexicographic on
`(-tag_score, -popularity, -rating)`, i.e. each component descending. -/
def sortKeyLE (a b : POI × ℕ × ℚ × ℚ) : Bool :=
  decide ((-(a.2.1 : ℚ), -a.2.2.1, -a.2.2.2) ≤ ((-(b.2.1 : ℚ), -b.2.2.1, -b.2.2.2) : ℚ ×ₗ ℚ ×ₗ ℚ))

/-- The Firestore query of `filter_pois` (lines 141-145):
`category_primary IN config["category_primary"]`, `limit(100)`. The city's
`places` collection is the `catalog` parameter. -/
def queried (cfg : Config) (catalog : List POI) : List POI :=
  (catalog.filter (fun p => cfg.category_primary.contains p.category_primary)).take 100

/-- `filter_pois(config, city, excluded)` of `poi_service.py`, lines
125-211: query by category, apply the hard filters and tag scoring, promote
the fallback pool when the primary pool is empty, sort by
tag score / popularity / rating descending, and strip the internal score.
`none` models the uncaught `ValueError` the sort key raises on an
unparseable rating or popularity among pool members. -/
def filter_pois (cfg : Config) (catalog : List POI) (excluded : List String) :
    Option (List POI) := do
  let docs := queried cfg catalog
  let pools := classify cfg excluded docs
  let pool := if pools.1.isEmpty then pools.2 else pools.1
  let keyed ← addKeys pool
  pure ((pySort sortKeyLE keyed).map (·.1))

/-! ### Supporting lemmas about the filter -/

/-- Elements surviving `addKeys` are pool members (with their score). -/
theorem addKeys_mem {l : List (POI × ℕ)} {keyed : List (POI × ℕ × ℚ × ℚ)}
    (h : addKeys l = some keyed) :
    ∀ x ∈ keyed, (x.1, x.2.1) ∈ l := by
  induction l generalizing keyed with
  | nil =>
    simp only [addKeys, Option.some.injEq] at h
    subst h; simp
  | cons hd tl ih =>
    obtain ⟨p, s⟩ := hd
    simp only [addKeys, Option.bind_eq_bind, Option.bind_eq_some] at h
    obtain ⟨pop, _, r, _, tl2, htl, heq⟩ := h
    simp only [Option.pure_def, Option.some.injEq] at heq
    subst heq
    intro x hx
    rcases List.mem_cons.mp hx with h1 | h2
    · subst h1; simp
    · exact List.mem_cons_of_mem _ (ih htl x h2)

/-- `addKeys` only decorates: the underlying POI list is unchanged. -/
theorem addKeys_map_fst {l : List (POI × ℕ)} {keyed : List (POI × ℕ × ℚ × ℚ)}
    (h : addKeys l = some keyed) :
    keyed.map (·.1) = l.map (·.1) := by
  induction l generalizing keyed with
  | nil =>
    simp only [addKeys, Option.some.injEq] at h
    subst h; simp
  | cons hd tl ih =>
    obtain ⟨p, s⟩ := hd
    simp only [addKeys, Option.bind_eq_bind, Option.bind_eq_some] at h
    obtain ⟨pop, _, r, _, tl2, htl, heq⟩ := h
    simp only [Option.pure_def, Option.some.injEq] at heq
    subst heq
    simp [ih htl]

/-- The primary pool is exactly the hard-passing queried docs with positive
tag score (or an empty tag requirement), in discovery order, paired with
their scores. -/
theorem classify_fst_eq (cfg : Config) (excluded : List String) (docs : List POI) :
    (classify cfg excluded docs).1 =
      (docs.filter (fun p => hard_pass cfg excluded p &&
          (0 < _tag_score p cfg.tags || cfg.tags.isEmpty))).map
        (fun p => (p, _tag_score p cfg.tags)) := by
  induction docs with
  | nil => rfl
  | cons hd tl ih =>
    simp only [classify, List.filter_cons]
    by_cases hp : hard_pass cfg excluded hd = true
    · simp only [hp, if_true, Bool.true_and]
      by_cases hs : (0 < _tag_score hd cfg.tags || cfg.tags.isEmpty) = true
      · simp [hs, ih]
      · simp only [Bool.not_eq_true] at hs
        simp [hs, ih]
    · simp only [Bool.not_eq_true] at hp
      simp [hp, ih]

/-- The fallback pool is exactly the hard-passing queried docs failing the
tag test, in discovery order, paired with their (zero) scores. -/
theorem classify_snd_eq (cfg : Config) (excluded : List String) (docs : List POI) :
    (classify cfg excluded docs).2 =
      (docs.filter (fun p => hard_pass cfg excluded p &&
          !(0 < _tag_score p cfg.tags || cfg.tags.isEmpty))).map
        (fun p => (p, _tag_score p cfg.tags)) := by
  induction docs with
  | nil => rfl
  | cons hd tl ih =>
    simp only [classify, List.filter_cons]
    by_cases hp : hard_pass cfg excluded hd = true
    · simp only [hp, if_true, Bool.true_and]
      by_cases hs : (0 < _tag_score hd cfg.tags || cfg.tags.isEmpty) = true
      · simp [hs, ih]
      · simp only [Bool.not_eq_true] at hs
        simp [hs, ih]
    · simp only [Bool.not_eq_true] at hp
      simp [hp, ih]

/-- Every POI returned by `filter_pois` came from one of the two pools, and
hence passed every hard filter. -/
theorem filter_pois_mem_hard_pass {cfg : Config} {catalog : List POI}
    {excluded : List String} {out : List POI}
    (h : filter_pois cfg catalog excluded = some out) :
    ∀ p ∈ out, hard_pass cfg excluded p = true := by
  intro p hp
  simp only [filter_pois, Option.bind_eq_bind, Option.bind_eq_some,
    Option.some.injEq] at h
  obtain ⟨keyed, hkeyed, hout⟩ := h
  simp only [Option.pure_def, Option.some.injEq] at hout
  subst hout
  obtain ⟨x, hx, hxp⟩ := List.mem_map.mp hp
  have hxk : x ∈ keyed := ((pySort_perm sortKeyLE keyed).mem_iff).mp hx
  have hmem := addKeys_mem hkeyed x hxk
  set pools := classify cfg excluded (queried cfg catalog) with hpools
  have : (x.1, x.2.1) ∈ pools.1 ∨ (x.1, x.2.1) ∈ pools.2 := by
    by_cases he : pools.1.isEmpty
    · right; simpa [he] using hmem
    · left; simpa [he] using hmem
  rcases this with hm | hm
  · rw [hpools, classify_fst_eq] at hm
    obtain ⟨q, hq, hqx⟩ := List.mem_map.mp hm
    have := List.of_mem_filter hq
    rw [hxp] at hqx
    obtain ⟨rfl, -⟩ : q = p ∧ _tag_score q cfg.tags = x.2.1 := by
      exact ⟨congrArg Prod.fst hqx, congrArg Prod.snd hqx⟩
    exact (Bool.and_eq_true _ _ ▸ this).1
  · rw [hpools, classify_snd_eq] at hm
    obtain ⟨q, hq, hqx⟩ := List.mem_map.mp hm
    have := List.of_mem_filter hq
    rw [hxp] at hqx
    obtain ⟨rfl, -⟩ : q = p ∧ _tag_score q cfg.tags = x.2.1 := by
      exact ⟨congrArg Prod.fst hqx, congrArg Prod.snd hqx⟩
    exact (Bool.and_eq_true _ _ ▸ this).1

/-- On naturals, `decide (n = 0)` is the complement of `decide (0 < n)`. -/
theorem decide_zero_compl (n : ℕ) : decide (n = 0) = !decide (0 < n) := by
  cases n <;> simp

/-! ### Claim theorems about config resolution and filtering -/

/-- **C1** (code-bug evidence). The documented precedence
"override > budget band > preset default" is not what `resolve_config`
computes: with the heritage preset, the economy band and no overrides,
`min_rating` resolves to the constant 4.0 although the preset default is
4.3 (and no band defines one), and `budget_per_day` resolves to the preset
default 1200 although the band's daily budget 1500 should take precedence. -/
theorem c1_resolve_config_ignores_tiers :
    (resolve_config "pkg-heritage" "economy" {}).min_rating = 4 ∧
    ((PACKAGES "pkg-heritage").map (·.defaults.min_rating)) = some (43/10) ∧
    ((43 : ℚ)/10 ≠ 4) ∧
    (resolve_config "pkg-heritage" "economy" {}).budget_per_day = 1200 ∧
    ((BUDGET_BANDS "economy").map (·.daily_budget)) = some 1500 ∧
    ((1200 : ℚ) ≠ 1500) := by
  refine ⟨rfl, rfl, by norm_num, rfl, rfl, by norm_num⟩

/-- **C5**. With a resolved max entry fee of zero the fee filter still
applies: no POI whose entry fee parses to a positive value survives
`filter_pois`; the fee filter passes POIs whose fee parses to zero or less;
and an explicit zero override survives `resolve_config` (zero is
distinguished from absent). -/
theorem c5_zero_max_fee_excludes_paid
    (cfg : Config) (catalog : List POI) (excluded : List String) (out : List POI)
    (hmax : cfg.max_entry_fee = 0)
    (hflt : filter_pois cfg catalog excluded = some out) :
    (∀ p ∈ out, ∀ q, pyFloat0 p.entry_fee = some q → q ≤ 0) ∧
    (∀ p : POI, ∀ q, pyFloat0 p.entry_fee = some q → q ≤ 0 →
        feePass cfg.max_entry_fee p = true) ∧
    (∀ (pid band : String) (ovr : Overrides), (resolve_config pid band
        { ovr with max_entry_fee := some 0 }).max_entry_fee = 0) := by
  refine ⟨?_, ?_, ?_⟩
  · intro p hp q hq
    have hhard := filter_pois_mem_hard_pass hflt p hp
    simp only [hard_pass, Bool.and_eq_true] at hhard
    obtain ⟨⟨⟨⟨-, hfee⟩, -⟩, -⟩, -⟩ := hhard
    rw [hmax] at hfee
    simp only [feePass, hq, Bool.not_eq_true'] at hfee
    exact not_lt.mp (of_decide_eq_false hfee)
  · intro p q hq hle
    rw [hmax]
    simp only [feePass, hq, Bool.not_eq_true']
    exact decide_eq_false (not_lt.mpr hle)
  · intro pid band ovr
    simp [resolve_config, _override]

/-- **C6**. With a non-empty tag requirement the filter returns (a
permutation of) the primary pool — hard-passing queried candidates with
positive tag score — when that pool is non-empty, and exactly the fallback
pool of zero-score hard-passing candidates otherwise, so a category-matching
pool with no tag overlap is returned in full. -/
theorem c6_fallback_pool_promotion
    (cfg : Config) (catalog : List POI) (excluded : List String) (out : List POI)
    (htags : cfg.tags ≠ [])
    (hflt : filter_pois cfg catalog excluded = some out) :
    out.Perm
      (if ((queried cfg catalog).filter (fun p =>
              hard_pass cfg excluded p && decide (0 < _tag_score p cfg.tags))).isEmpty
       then (queried cfg catalog).filter (fun p =>
              hard_pass cfg excluded p && decide (_tag_score p cfg.tags = 0))
       else (queried cfg catalog).filter (fun p =>
              hard_pass cfg excluded p && decide (0 < _tag_score p cfg.tags))) := by
  have hie : cfg.tags.isEmpty = false := by
    cases h : cfg.tags with
    | nil => exact absurd h htags
    | cons a l => rfl
  simp only [filter_pois, Option.bind_eq_bind, Option.bind_eq_some, Option.pure_def,
    Option.some.injEq] at hflt
  obtain ⟨keyed, hkeyed, hout⟩ := hflt
  subst hout
  have hperm : (List.map (·.1) (pySort sortKeyLE keyed)).Perm (keyed.map (·.1)) :=
    ((pySort_perm sortKeyLE keyed).map _)
  rw [addKeys_map_fst hkeyed] at hperm
  have hpred1 : ∀ p ∈ queried cfg catalog,
      (hard_pass cfg excluded p && (0 < _tag_score p cfg.tags || cfg.tags.isEmpty)) =
      (hard_pass cfg excluded p && decide (0 < _tag_score p cfg.tags)) := by
    intro p _; rw [hie]; simp
  have hpred2 : ∀ p ∈ queried cfg catalog,
      (hard_pass cfg excluded p && !(0 < _tag_score p cfg.tags || cfg.tags.isEmpty)) =
      (hard_pass cfg excluded p && decide (_tag_score p cfg.tags = 0)) := by
    intro p _; rw [hie, decide_zero_compl]; simp
  have hid : ∀ l : List POI,
      (l.map (fun p => (p, _tag_score p cfg.tags))).map (·.1) = l := by
    intro l; rw [List.map_map]; exact List.map_id l
  have hlen : ∀ l : List POI,
      ((l.map (fun p => (p, _tag_score p cfg.tags))).isEmpty : Bool) = l.isEmpty := by
    intro l; cases l <;> rfl
  have heq :
      (if (classify cfg excluded (queried cfg catalog)).1.isEmpty then
          (classify cfg excluded (queried cfg catalog)).2
        else (classify cfg excluded (queried cfg catalog)).1).map (·.1) =
      (if ((queried cfg catalog).filter (fun p =>
              hard_pass cfg excluded p && decide (0 < _tag_score p cfg.tags))).isEmpty
       then (queried cfg catalog).filter (fun p =>
              hard_pass cfg excluded p && decide (_tag_score p cfg.tags = 0))
       else (queried cfg catalog).filter (fun p =>
              hard_pass cfg excluded p && decide (0 < _tag_score p cfg.tags))) := by
    rw [apply_ite (List.map (fun x : POI × ℕ => x.1)), classify_fst_eq,
      classify_snd_eq, hid, hid, hlen,
      List.filter_congr hpred1, List.filter_congr hpred2]
  rw [heq] at hperm
  exact hperm

/-- **C7**. The hard filters fail open: an unparseable entry fee passes the
fee filter, an unparseable rating passes the rating filter, missing or
unparseable opening hours pass the opening check (each filter is a total
boolean function — it cannot raise) — and any candidate the hard filters do
discard is discarded for a concrete parsed reason, never solely for
unparseable data. -/
theorem c7_hard_filters_fail_open
    (cfg : Config) (excluded : List String) (p : POI) :
    (p.entry_fee = .junk → feePass cfg.max_entry_fee p = true) ∧
    (p.rating = .junk → ratingPass cfg.min_rating p = true) ∧
    ((p.opening_hours = .absent ∨ p.opening_hours = .nodash ∨
      (∃ o c, p.opening_hours = .pair o c ∧
        (parse_time o = none ∨ parse_time c = none))) →
      _is_open_during p cfg.start_time cfg.end_time = true) ∧
    (hard_pass cfg excluded p = false →
      excluded.contains p.poi_id = true ∨
      (∃ q, pyFloat0 p.entry_fee = some q ∧ cfg.max_entry_fee < q) ∨
      (∃ q, pyFloat0 p.rating = some q ∧ q < cfg.min_rating) ∨
      (cfg.wheelchair_only = true ∧ p.wheelchair_accessible = false) ∨
      ((p.is_open_24hrs = false) ∧ ∃ o c opens closes starts ends,
        p.opening_hours = .pair o c ∧
        parse_time o = some opens ∧ parse_time c = some closes ∧
        parse_time cfg.start_time = some starts ∧
        parse_time cfg.end_time = some ends ∧
        (closes ≤ starts ∨ ends ≤ opens))) := by
  refine ⟨?_, ?_, ?_, ?_⟩
  · intro hj; simp [feePass, hj, pyFloat0]
  · intro hj; simp [ratingPass, hj, pyFloat0]
  · intro hcase
    rcases hcase with h | h | ⟨o, c, h, hpc⟩
    · simp [_is_open_during, h]
    · simp [_is_open_during, h]
    · by_cases h24 : p.is_open_24hrs = true
      · simp [_is_open_during, h24]
      · simp only [Bool.not_eq_true] at h24
        rcases hpc with hp | hp
        · simp [_is_open_during, h, h24, hp]
        · cases ho : parse_time o <;> simp [_is_open_during, h, h24, hp, ho]
  · intro hfail
    by_cases hexcl : excluded.contains p.poi_id = true
    · exact Or.inl hexcl
    · right
      simp only [Bool.not_eq_true] at hexcl
      by_cases hfee : feePass cfg.max_entry_fee p = true
      · right
        by_cases hrat : ratingPass cfg.min_rating p = true
        · right
          by_cases hwheel : wheelchairPass cfg p = true
          · right
            have hopen : _is_open_during p cfg.start_time cfg.end_time = false := by
              by_cases h : _is_open_during p cfg.start_time cfg.end_time = true
              · exfalso
                simp only [hard_pass, hexcl, hfee, hrat, hwheel, h] at hfail
                simp at hfail
              · simpa using h
            -- extract the structured reason from a false opening check
            by_cases h24 : p.is_open_24hrs = true
            · rw [_is_open_during, h24] at hopen; simp at hopen
            · simp only [Bool.not_eq_true] at h24
              refine ⟨h24, ?_⟩
              rw [_is_open_during, h24] at hopen
              simp only [Bool.false_eq_true, if_false] at hopen
              cases hoh : p.opening_hours with
              | absent => simp only [hoh] at hopen; simp at hopen
              | nodash => simp only [hoh] at hopen; simp at hopen
              | pair o c =>
                simp only [hoh] at hopen
                cases hpo : parse_time o with
                | none => simp [hpo] at hopen
                | some opens =>
                  cases hpcl : parse_time c with
                  | none => simp [hpo, hpcl] at hopen
                  | some closes =>
                    cases hps : parse_time cfg.start_time with
                    | none => simp [hpo, hpcl, hps] at hopen
                    | some starts =>
                      cases hpe : parse_time cfg.end_time with
                      | none => simp [hpo, hpcl, hps, hpe] at hopen
                      | some ends =>
                        simp only [hpo, hpcl, hps, hpe, Option.bind_eq_bind,
                          Option.some_bind, Option.pure_def, Option.getD_some,
                          Bool.not_eq_false', Bool.or_eq_true,
                          decide_eq_true_eq] at hopen
                        exact ⟨o, c, opens, closes, starts, ends, rfl, hpo, hpcl,
                          rfl, rfl, hopen⟩
          · have hw : wheelchairPass cfg p = false := by simpa using hwheel
            simp only [wheelchairPass, Bool.not_eq_false', Bool.and_eq_true,
              Bool.not_eq_true'] at hw
            exact Or.inl hw
        · have hr : ratingPass cfg.min_rating p = false := by simpa using hrat
          left
          rw [ratingPass] at hr
          cases hq : pyFloat0 p.rating with
          | none => rw [hq] at hr; simp at hr
          | some q =>
            rw [hq] at hr
            simp only [Bool.not_eq_false', decide_eq_true_eq] at hr
            exact ⟨q, rfl, hr⟩
      · have hf : feePass cfg.max_entry_fee p = false := by simpa using hfee
        left
        rw [feePass] at hf
        cases hq : pyFloat0 p.entry_fee with
        | none => rw [hq] at hf; simp at hf
        | some q =>
          rw [hq] at hf
          simp only [Bool.not_eq_false', decide_eq_true_eq] at hf
          exact ⟨q, rfl, hf⟩

/-! ## `src/services/ors_service.py` — travel matrix and route ordering -/

/-- A coordinate pair (lat, lon). -/
abbrev Coord := ℚ × ℚ

/-- The type of the great-circle distance function `haversine` of
`ors_service.py`. Its transcendental formula is not computable over ℚ, so
the whole development is parameterised by a distance function `D` standing
for `haversine`; every theorem quantifies over `D`. -/
abbrev DistFn := ℚ → ℚ → ℚ → ℚ → ℚ

/-- `_fallback_matrix(coords)` of `ors_service.py`, lines 37-45: the
pairwise distance-based travel-time matrix in minutes at 20 km/h, as a
function of the two indices. -/
def _fallback_matrix (D : DistFn) (coords : List Coord) (i j : ℕ) : ℚ :=
  let ci := coords.getD i (0, 0)
  let cj := coords.getD j (0, 0)
  D ci.1 ci.2 cj.1 cj.2 / 20 * 60

/-- `get_travel_matrix(coords, mode)` of `ors_service.py`, lines 48-66:
with no ORS client configured the fallback matrix is always returned (the
`mode` argument is accepted but unused on that path, as in the source). -/
def get_travel_matrix (D : DistFn) (coords : List Coord) (mode : String) :
    ℕ → ℕ → ℚ :=
  let _ := mode
  _fallback_matrix D coords

/-- Python's `min(xs, key=f)` for a list: the first element whose key
attains the minimum (a later element replaces the current best only when
its key is strictly smaller), `none` on the empty list (where Python
raises). -/
def pyMin {α : Type} (key : α → ℚ) : List α → Option α
  | [] => none
  | x :: xs => some (xs.foldl (fun b a => if key a < key b then a else b) x)

/-- The result of the `pyMin` fold is one of the candidates. -/
theorem foldl_choice_mem {α : Type} (key : α → ℚ) (xs : List α) (b : α) :
    xs.foldl (fun b a => if key a < key b then a else b) b ∈ b :: xs := by
  induction xs generalizing b with
  | nil => simp
  | cons hd tl ih =>
    simp only [List.foldl_cons]
    by_cases h : key hd < key b
    · simp only [if_pos h]
      rcases List.mem_cons.mp (ih hd) with h1 | h1
      · rw [h1]; simp
      · exact List.mem_cons_of_mem _ (List.mem_cons_of_mem _ h1)
    · simp only [if_neg h]
      rcases List.mem_cons.mp (ih b) with h1 | h1
      · rw [h1]; simp
      · exact List.mem_cons_of_mem _ (List.mem_cons_of_mem _ h1)

/-- `pyMin` returns a member of the list. -/
theorem pyMin_mem {α : Type} {key : α → ℚ} {l : List α} {m : α}
    (h : pyMin key l = some m) : m ∈ l := by
  cases l with
  | nil => simp [pyMin] at h
  | cons x xs =>
    simp only [pyMin, Option.some.injEq] at h
    subst h
    exact foldl_choice_mem key xs x

/-- The `pyMin` fold picks the first element attaining the minimum key:
the list splits around the result, everything before it has a strictly
larger key, and nothing anywhere has a smaller one. -/
theorem foldl_first_min {α : Type} (key : α → ℚ) :
    ∀ (xs : List α) (b : α),
    ∃ l₁ l₂,
      b :: xs = l₁ ++ (xs.foldl (fun b a => if key a < key b then a else b) b) :: l₂ ∧
      (∀ a ∈ l₁, key (xs.foldl (fun b a => if key a < key b then a else b) b) < key a) ∧
      (∀ a ∈ b :: xs, key (xs.foldl (fun b a => if key a < key b then a else b) b) ≤ key a) := by
  intro xs
  induction xs with
  | nil =>
    intro b
    exact ⟨[], [], rfl, by simp, by simp⟩
  | cons hd tl ih =>
    intro b
    simp only [List.foldl_cons]
    by_cases h : key hd < key b
    · simp only [if_pos h]
      obtain ⟨l₁, l₂, hsplit, hfirst, hmin⟩ := ih hd
      set r := tl.foldl (fun b a => if key a < key b then a else b) hd with hr
      refine ⟨b :: l₁, l₂, ?_, ?_, ?_⟩
      · rw [List.cons_append, ← hsplit]
      · intro a ha
        rcases List.mem_cons.mp ha with h1 | h1
        · rw [h1]
          exact lt_of_le_of_lt (hmin hd (List.mem_cons_self hd tl)) h
        · exact hfirst a h1
      · intro a ha
        rcases List.mem_cons.mp ha with h1 | h1
        · rw [h1]
          exact le_of_lt (lt_of_le_of_lt (hmin hd (List.mem_cons_self hd tl)) h)
        · exact hmin a h1
    · simp only [if_neg h]
      obtain ⟨l₁, l₂, hsplit, hfirst, hmin⟩ := ih b
      set r := tl.foldl (fun b a => if key a < key b then a else b) b with hr
      cases l₁ with
      | nil =>
        simp only [List.nil_append] at hsplit
        have hb : r = b := ((List.cons.injEq _ _ _ _).mp hsplit).1.symm
        refine ⟨[], hd :: tl, ?_, by simp, ?_⟩
        · rw [List.nil_append, hb]
        · intro a ha
          rcases List.mem_cons.mp ha with h1 | h1
          · rw [h1, hb]
          · rcases List.mem_cons.mp h1 with h2 | h2
            · rw [h2, hb]; exact le_of_not_lt h
            · exact hmin a (List.mem_cons_of_mem _ h2)
      | cons c l₁ =>
        have hcb : b = c := ((List.cons.injEq _ _ _ _).mp hsplit).1
        have htl : tl = l₁ ++ r :: l₂ := ((List.cons.injEq _ _ _ _).mp hsplit).2
        rw [← hcb] at hfirst
        refine ⟨b :: hd :: l₁, l₂, ?_, ?_, ?_⟩
        · rw [htl]; rfl
        · intro a ha
          rcases List.mem_cons.mp ha with h1 | h1
          · rw [h1]
            exact hfirst b (List.mem_cons_self b l₁)
          · rcases List.mem_cons.mp h1 with h2 | h2
            · rw [h2]
              exact lt_of_lt_of_le (hfirst b (List.mem_cons_self b l₁)) (le_of_not_lt h)
            · exact hfirst a (List.mem_cons_of_mem _ h2)
        · intro a ha
          rcases List.mem_cons.mp ha with h1 | h1
          · rw [h1]
            exact hmin b (List.mem_cons_self b tl)
          · rcases List.mem_cons.mp h1 with h2 | h2
            · rw [h2]
              exact le_of_lt (lt_of_lt_of_le (hfirst b (List.mem_cons_self b l₁))
                (le_of_not_lt h))
            · exact hmin a (List.mem_cons_of_mem _ h2)

/-- The `while remaining:` loop of `optimize_route_greedy` (lines 114-124).
`remaining` carries each POI with its index into the original input list
(matrix row/column `index + 1`); `List.erase` removes the selected entry,
mirroring `remaining.remove(nearest)`. Each iteration removes exactly one
element, so the loop runs `remaining.length` times; the structural `fuel`
argument, always instantiated with `remaining.length`, makes the recursion
structural. -/
def greedyLoop (M : ℕ → ℕ → ℚ) : ℕ → ℕ → List (ℕ × POI) → List POI
  | 0, _, _ => []
  | fuel + 1, cur, remaining =>
    match pyMin (fun ip => M cur (ip.1 + 1)) remaining with
    | none => []
    | some nearest =>
      nearest.2 :: greedyLoop M fuel (nearest.1 + 1) (remaining.erase nearest)

/-- `optimize_route_greedy(pois, start_lat, start_lon, mode)` of
`ors_service.py`, lines 97-125: empty input short-circuits to `[]`;
otherwise build the coordinate list `[hotel] ++ pois`, take the travel
matrix, and run greedy nearest-neighbor from matrix row 0. -/
def optimize_route_greedy (D : DistFn) (pois : List POI)
    (start_lat start_lon : ℚ) (mode : String) : List POI :=
  if pois.isEmpty then []
  else
    let coords : List Coord :=
      (start_lat, start_lon) :: pois.map (fun p => (p.lat, p.lon))
    greedyLoop (get_travel_matrix D coords mode) pois.enum.length 0 pois.enum

/-- Modelled from the claim's words: the first element of `l` whose key is
less than or equal to every element's key — "the unvisited POI with minimum
travel time from the current position, ties broken by earliest list
position". -/
def argminFirst {α : Type} (key : α → ℚ) (l : List α) : Option α :=
  l.find? (fun a => l.all (fun b => decide (key a ≤ key b)))

/-- `argminFirst` returns a member of the list. -/
theorem argminFirst_mem {α : Type} {key : α → ℚ} {l : List α} {m : α}
    (h : argminFirst key l = some m) : m ∈ l :=
  List.mem_of_find?_eq_some h

/-- Modelled from the claim's words: repeatedly append the unvisited POI
with minimum travel time from the current position (earliest list position
on ties), advance the current position to it, and remove it from the
remaining set. -/
def greedySpecLoop (M : ℕ → ℕ → ℚ) : ℕ → ℕ → List (ℕ × POI) → List POI
  | 0, _, _ => []
  | fuel + 1, cur, remaining =>
    match argminFirst (fun ip => M cur (ip.1 + 1)) remaining with
    | none => []
    | some chosen =>
      chosen.2 :: greedySpecLoop M fuel (chosen.1 + 1) (remaining.erase chosen)

/-- Modelled from the claim's words: the greedy route order as §4.4 states
it, used as the specification side of claim C8. -/
def greedy_spec (D : DistFn) (pois : List POI)
    (start_lat start_lon : ℚ) (mode : String) : List POI :=
  if pois.isEmpty then []
  else
    let coords : List Coord :=
      (start_lat, start_lon) :: pois.map (fun p => (p.lat, p.lon))
    greedySpecLoop (get_travel_matrix D coords mode) pois.enum.length 0 pois.enum

/-- `find?` returns the marked element when everything before it fails the
predicate and it satisfies it. -/
theorem find?_first {α : Type} (pred : α → Bool) :
    ∀ (l₁ : List α) (r : α) (l₂ : List α),
    (∀ a ∈ l₁, pred a = false) → pred r = true →
    (l₁ ++ r :: l₂).find? pred = some r := by
  intro l₁
  induction l₁ with
  | nil =>
    intro r l₂ _ hr
    simp [List.find?_cons, hr]
  | cons hd tl ih =>
    intro r l₂ hfalse hr
    have hhd : pred hd = false := hfalse hd (List.mem_cons_self hd tl)
    simp only [List.cons_append, List.find?_cons, hhd]
    exact ih r l₂ (fun a ha => hfalse a (List.mem_cons_of_mem _ ha)) hr

/-- Python's first-minimum `min` coincides with the claim's
"minimum key, earliest position on ties" selection. -/
theorem pyMin_eq_argminFirst {α : Type} (key : α → ℚ) (l : List α) :
    pyMin key l = argminFirst key l := by
  cases l with
  | nil => rfl
  | cons x xs =>
    obtain ⟨l₁, l₂, hsplit, hfirst, hmin⟩ := foldl_first_min key xs x
    set r := xs.foldl (fun b a => if key a < key b then a else b) x with hr
    have hpred_r : ((x :: xs).all (fun b => decide (key r ≤ key b))) = true :=
      List.all_eq_true.mpr (fun b hb => decide_eq_true (hmin b hb))
    have hpred_l₁ : ∀ a ∈ l₁,
        ((x :: xs).all (fun b => decide (key a ≤ key b))) = false := by
      intro a ha
      refine List.all_eq_false.mpr ⟨r, ?_, ?_⟩
      · rw [hsplit]
        exact List.mem_append_right l₁ (List.mem_cons_self r l₂)
      · simp only [decide_eq_true_eq]
        exact not_le.mpr (hfirst a ha)
    have : (x :: xs).find? (fun a => (x :: xs).all (fun b => decide (key a ≤ key b)))
        = some r := by
      rw [hsplit]
      refine find?_first _ l₁ r l₂ ?_ ?_
      · intro a ha
        rw [← hsplit]
        exact hpred_l₁ a ha
      · rw [← hsplit]
        exact hpred_r
    simp only [pyMin, argminFirst]
    rw [this]

/-- The source loop and the specification loop coincide. -/
theorem greedyLoop_eq_spec (M : ℕ → ℕ → ℚ) :
    ∀ (fuel cur : ℕ) (remaining : List (ℕ × POI)),
    greedyLoop M fuel cur remaining = greedySpecLoop M fuel cur remaining := by
  intro fuel
  induction fuel with
  | zero => intro cur remaining; rfl
  | succ n ih =>
    intro cur remaining
    rw [greedyLoop, greedySpecLoop, pyMin_eq_argminFirst]
    cases hm : argminFirst (fun ip => M cur (ip.1 + 1)) remaining with
    | none => rfl
    | some chosen =>
      show chosen.2 :: greedyLoop M n (chosen.1 + 1) (remaining.erase chosen) =
        chosen.2 :: greedySpecLoop M n (chosen.1 + 1) (remaining.erase chosen)
      rw [ih]

/-- Every element the greedy loop emits came from the remaining set. -/
theorem greedyLoop_subset (M : ℕ → ℕ → ℚ) :
    ∀ (fuel cur : ℕ) (remaining : List (ℕ × POI)),
    ∀ p ∈ greedyLoop M fuel cur remaining, ∃ i, (i, p) ∈ remaining := by
  intro fuel
  induction fuel with
  | zero => intro cur remaining p hp; simp [greedyLoop] at hp
  | succ n ih =>
    intro cur remaining p hp
    rw [greedyLoop] at hp
    revert hp
    cases hm : pyMin (fun ip => M cur (ip.1 + 1)) remaining with
    | none => intro hp; simp at hp
    | some nearest =>
      intro hp
      have hmem := pyMin_mem hm
      rcases List.mem_cons.mp hp with h1 | h1
      · exact ⟨nearest.1, by rw [h1]; exact (Prod.mk.eta (p := nearest)) ▸ hmem⟩
      · obtain ⟨i, hi⟩ := ih (nearest.1 + 1) (remaining.erase nearest) p h1
        exact ⟨i, List.mem_of_mem_erase hi⟩

/-- Every element `optimize_route_greedy` emits is an input POI. -/
theorem optimize_route_greedy_subset (D : DistFn) (pois : List POI)
    (slat slon : ℚ) (mode : String) :
    ∀ p ∈ optimize_route_greedy D pois slat slon mode, p ∈ pois := by
  intro p hp
  rw [optimize_route_greedy] at hp
  by_cases he : pois.isEmpty
  · simp [he] at hp
  · simp only [he, if_false, Bool.false_eq_true] at hp
    obtain ⟨i, hi⟩ := greedyLoop_subset _ pois.enum.length 0 pois.enum p hp
    have hget : pois[i]? = some p := List.mk_mem_enum_iff_getElem?.mp hi
    exact List.mem_iff_getElem?.mpr ⟨i, hget⟩

/-- **C8**. The route orderer implements exactly the claim's algorithm:
the empty input yields the empty result, and otherwise, starting from the
origin (matrix row 0), it repeatedly appends the unvisited POI with minimum
travel time from the current position — earliest list position breaking
ties — and advances the current position to the appended POI
(`greedy_spec`, built from `argminFirst`, is that algorithm verbatim). -/
theorem c8_greedy_route_order (D : DistFn) (pois : List POI)
    (slat slon : ℚ) (mode : String) :
    optimize_route_greedy D pois slat slon mode =
      greedy_spec D pois slat slon mode ∧
    optimize_route_greedy D [] slat slon mode = [] := by
  constructor
  · rw [optimize_route_greedy, greedy_spec]
    by_cases he : pois.isEmpty
    · simp [he]
    · simp only [he, Bool.false_eq_true, if_false]
      exact greedyLoop_eq_spec _ pois.enum.length 0 pois.enum
  · rfl

/-! ## `src/services/scheduler.py` — day scheduling -/

/-- `DayConstraint` of `models/schemas.py`, with its pydantic defaults. -/
structure DayConstraint where
  day_number : ℤ
  start_time : TimeStr := .hm (9*60)
  end_time : TimeStr := .hm (19*60)
  pace : Pace := .normal
  fixed_pois : List String := []
  excluded_pois : List String := []
  max_budget : Option ℚ := none
  transport_override : Option String := none
deriving DecidableEq, Repr

/-- `PACE_STOPS` of `scheduler.py`, line 14. -/
def PACE_STOPS : Pace → ℕ × ℕ
  | .relaxed => (2, 3)
  | .normal => (3, 5)
  | .packed => (5, 7)

instance : Inhabited Rate := ⟨⟨0, 0⟩⟩

/-- `transport_cost(dist_km, mode)` of `scheduler.py`, lines 50-52: base fee
plus per-km rate for the mode (unknown modes use the `auto` row), rounded to
two decimals. -/
def transport_cost (dist_km : ℚ) (mode : String) : ℚ :=
  let r := (TRANSPORT_RATES mode).getD ((TRANSPORT_RATES "auto").getD default)
  round2 (r.base + r.per_km * dist_km)

/-- `travel_mins(dist_km, mode)` of `scheduler.py`, lines 55-57:
`max(5, int((dist_km / speed) * 60))` with a default speed of 20 km/h for
unknown modes. -/
def travel_mins (dist_km : ℚ) (mode : String) : ℤ :=
  let speed := (TRANSPORT_SPEED mode).getD 20
  max 5 (pyTrunc (dist_km / speed * 60))

/-- `activity_extra_cost(activities)` of `scheduler.py`, lines 60-66:
sum of the fixed surcharges; unknown activity tags contribute zero. -/
def activity_extra_cost (activities : List String) : ℚ :=
  (activities.map (fun a => (ACTIVITY_EXTRAS a).getD 0)).sum

/-- One scheduled visit (`TimeSlot` of `models/schemas.py`); the
"HH:MM"-formatted `start_time`/`end_time` strings are carried as minutes
(`_fmt`/`_parse` are inverse on the modelled range). -/
structure TimeSlot where
  poi_id : String
  name : String
  start_min : ℤ
  end_min : ℤ
  duration_mins : ℤ
  travel_from_prev_mins : ℤ
  travel_from_prev_cost : ℚ
  entry_fee : ℚ
  activity_extras : ℚ
  slot_total : ℚ
  lat : ℚ
  lon : ℚ
  address : String
  activities : List String
  rating : ℚ
  best_time : String
deriving DecidableEq, Repr

/-- The `cost_breakdown` dict (`Dict[str, Any]`): the five keys
`schedule_day` always writes, plus the optional `max_budget` key the cost
service reads via `.get` (never written by the scheduler) and the optional
`budget_warning` key the planner writes. -/
structure CostBreakdown where
  entry : ℚ
  transport : ℚ
  extras : ℚ
  return_transport : ℚ
  total : ℚ
  max_budget : Option ℚ := none
  budget_warning : Option String := none
deriving DecidableEq, Repr

/-- `DaySchedule` of `models/schemas.py`. -/
structure DaySchedule where
  day_number : ℤ
  slots : List TimeSlot
  total_mins : ℤ
  free_mins : ℤ
  cost_breakdown : CostBreakdown
deriving DecidableEq, Repr

/-- `dc.transport_override or transport_mode` — Python `or` also rejects an
empty (falsy) override string. -/
def effectiveMode (o : Option String) (mode : String) : String :=
  match o with
  | none => mode
  | some s => if s = "" then mode else s

/-- The mutable state threaded through the `for poi in ordered:` loop of
`schedule_day`: current time, previous position, and the running totals. -/
structure SchedState where
  cur : ℤ
  prevLat : ℚ
  prevLon : ℚ
  entry : ℚ
  transport : ℚ
  extras : ℚ
  minsUsed : ℤ
deriving DecidableEq, Repr

/-- The `for poi in ordered:` loop of `schedule_day` (lines 102-147). All
per-stop quantities up to `depart` are computed before the
`depart > end_time` break check, exactly as in the source (so an
unparseable fee or duration raises even for the candidate about to be
dropped), while the slot's `rating` is parsed only when the slot is
actually constructed. The `break` drops the candidate and everything after
it, returning the state reached after the last emitted slot. -/
def schedLoop (D : DistFn) (mode : String) (endT : ℤ) :
    SchedState → List POI → Option (List TimeSlot × SchedState)
  | st, [] => some ([], st)
  | st, poi :: rest => do
    let dist := D st.prevLat st.prevLon poi.lat poi.lon
    let t_mins := travel_mins dist mode
    let t_cost := transport_cost dist mode
    let fee ← pyFloat0 poi.entry_fee
    let dur ← pyInt60 poi.duration_minutes
    let ext := activity_extra_cost poi.activities
    let arrive := st.cur + t_mins
    let depart := arrive + dur
    if endT < depart then
      some ([], st)
    else do
      let rating ← pyFloat0 poi.rating
      let slot : TimeSlot :=
        { poi_id := poi.poi_id, name := poi.name
          start_min := arrive, end_min := depart, duration_mins := dur
          travel_from_prev_mins := t_mins, travel_from_prev_cost := t_cost
          entry_fee := fee, activity_extras := ext
          slot_total := round2 (fee + t_cost + ext)
          lat := poi.lat, lon := poi.lon, address := poi.address
          activities := poi.activities, rating := rating
          best_time := poi.best_time_to_visit }
      let st2 : SchedState :=
        { cur := depart, prevLat := poi.lat, prevLon := poi.lon
          entry := st.entry + fee, transport := st.transport + t_cost
          extras := st.extras + ext, minsUsed := st.minsUsed + t_mins + dur }
      let tl ← schedLoop D mode endT st2 rest
      pure (slot :: tl.1, tl.2)

/-- Steps 1-2 of `schedule_day` (lines 85-90): cap the candidates at twice
the pace's max stops, then route-order at most `max_stops` of them. -/
def routedPool (D : DistFn) (pois : List POI) (dc : DayConstraint)
    (transport_mode : String) (hotel_lat hotel_lon : ℚ) : List POI :=
  let effective_mode := effectiveMode dc.transport_override transport_mode
  let max_stops := (PACE_STOPS dc.pace).2
  let candidates := pois.take (max_stops * 2)
  optimize_route_greedy D (candidates.take max_stops) hotel_lat hotel_lon
    effective_mode

/-- `schedule_day(pois, dc, transport_mode, hotel_lat, hotel_lon)` of
`scheduler.py`, lines 69-170: route-order the pace-capped pool, walk it
from the day start assigning arrival/departure times, stop at the first
candidate whose departure would pass the day end, then account the
return-to-hotel leg and assemble the cost breakdown. `none` models the
uncaught exceptions of `_parse` on a bad day-window string and of
`float`/`int` on unparseable POI fields. -/
def schedule_day (D : DistFn) (pois : List POI) (dc : DayConstraint)
    (transport_mode : String) (hotel_lat hotel_lon : ℚ) :
    Option DaySchedule := do
  let effective_mode := effectiveMode dc.transport_override transport_mode
  let ordered := routedPool D pois dc transport_mode hotel_lat hotel_lon
  let startT ← parse_time dc.start_time
  let endT ← parse_time dc.end_time
  let st0 : SchedState :=
    { cur := startT, prevLat := hotel_lat, prevLon := hotel_lon
      entry := 0, transport := 0, extras := 0, minsUsed := 0 }
  let res ← schedLoop D effective_mode endT st0 ordered
  let stf := res.2
  let ret_dist := D stf.prevLat stf.prevLon hotel_lat hotel_lon
  let ret_cost := transport_cost ret_dist effective_mode
  let ret_mins := travel_mins ret_dist effective_mode
  let day_transport := stf.transport + ret_cost
  let total_mins := stf.minsUsed + ret_mins
  let available_mins := endT - startT
  pure
    { day_number := dc.day_number
      slots := res.1
      total_mins := total_mins
      free_mins := max 0 (available_mins - total_mins)
      cost_breakdown :=
        { entry := round2 stf.entry
          transport := round2 day_transport
          extras := round2 stf.extras
          return_transport := round2 ret_cost
          total := round2 (stf.entry + day_transport + stf.extras) } }

/-- Travel time never drops below five minutes. -/
theorem travel_mins_ge_five (dist : ℚ) (mode : String) : 5 ≤ travel_mins dist mode :=
  le_max_left 5 _

/-- Full characterisation of the scheduling loop: every emitted slot departs
by `endT`; the slot ids are the ids of the processed prefix of the ordered
pool; the final state is the state after the last emitted slot; if the
processed prefix is proper then the first unprocessed candidate's computed
departure exceeds `endT` (the candidate is dropped, not deferred); and when
every candidate's visit duration is nonnegative the emitted start times are
non-decreasing and bounded below by the entry time. -/
theorem schedLoop_spec (D : DistFn) (mode : String) (endT : ℤ) :
    ∀ (l : List POI) (st : SchedState) (out : List TimeSlot × SchedState),
    schedLoop D mode endT st l = some out →
    (∀ sl ∈ out.1, sl.end_min ≤ endT) ∧
    out.1.map (·.poi_id) = (l.take out.1.length).map (·.poi_id) ∧
    (out.2.cur = ((out.1.getLast?).elim st.cur (·.end_min)) ∧
     out.2.prevLat = ((out.1.getLast?).elim st.prevLat (·.lat)) ∧
     out.2.prevLon = ((out.1.getLast?).elim st.prevLon (·.lon))) ∧
    (out.1.length = l.length ∨
      ∃ p, l[out.1.length]? = some p ∧ ∃ fee dur,
        pyFloat0 p.entry_fee = some fee ∧ pyInt60 p.duration_minutes = some dur ∧
        endT < out.2.cur +
          travel_mins (D out.2.prevLat out.2.prevLon p.lat p.lon) mode + dur) ∧
    ((∀ p ∈ l, ∀ d, pyInt60 p.duration_minutes = some d → 0 ≤ d) →
      (∀ sl ∈ out.1, st.cur ≤ sl.start_min) ∧
      out.1.Chain' (fun a b => a.start_min ≤ b.start_min)) := by
  intro l
  induction l with
  | nil =>
    intro st out h
    simp only [schedLoop, Option.some.injEq] at h
    subst h
    refine ⟨by simp, by simp, ⟨rfl, rfl, rfl⟩, Or.inl rfl, fun _ => ⟨by simp, by simp⟩⟩
  | cons poi rest ih =>
    intro st out h
    simp only [schedLoop, Option.bind_eq_bind] at h
    cases hfee : pyFloat0 poi.entry_fee with
    | none => rw [hfee] at h; simp at h
    | some fee =>
      cases hdurp : pyInt60 poi.duration_minutes with
      | none => rw [hfee, hdurp] at h; simp at h
      | some dur =>
        rw [hfee, hdurp] at h
        simp only [Option.some_bind] at h
        by_cases hbr : endT <
            st.cur + travel_mins (D st.prevLat st.prevLon poi.lat poi.lon) mode + dur
        · rw [if_pos hbr] at h
          simp only [Option.some.injEq] at h
          subst h
          refine ⟨by simp, by simp, ⟨rfl, rfl, rfl⟩, Or.inr ?_, fun _ => ⟨by simp, by simp⟩⟩
          exact ⟨poi, by simp, fee, dur, hfee, hdurp, hbr⟩
        · rw [if_neg hbr] at h
          cases hrat : pyFloat0 poi.rating with
          | none => rw [hrat] at h; simp at h
          | some rating =>
            rw [hrat] at h
            simp only [Option.some_bind] at h
            cases hrec : schedLoop D mode endT
                { cur := st.cur + travel_mins (D st.prevLat st.prevLon poi.lat poi.lon) mode + dur
                  prevLat := poi.lat, prevLon := poi.lon
                  entry := st.entry + fee
                  transport := st.transport + transport_cost (D st.prevLat st.prevLon poi.lat poi.lon) mode
                  extras := st.extras + activity_extra_cost poi.activities
                  minsUsed := st.minsUsed + travel_mins (D st.prevLat st.prevLon poi.lat poi.lon) mode + dur } rest with
            | none => rw [hrec] at h; simp at h
            | some tl =>
              rw [hrec] at h
              simp only [Option.some_bind, Option.pure_def, Option.some.injEq] at h
              subst h
              obtain ⟨iha, ihb, ⟨ihc1, ihc2, ihc3⟩, ihd, ihe⟩ := ih _ _ hrec
              set t := travel_mins (D st.prevLat st.prevLon poi.lat poi.lon) mode with ht
              constructor
              · -- departures bounded
                intro sl hsl
                rcases List.mem_cons.mp hsl with h1 | h1
                · rw [h1]
                  exact le_of_not_lt hbr
                · exact iha sl h1
              constructor
              · -- ids form the processed prefix
                simp only [List.map_cons, List.length_cons, List.take_succ_cons]
                rw [ihb]
              constructor
              · -- final state matches the last slot
                cases htl : tl.1 with
                | nil =>
                  rw [htl] at ihc1 ihc2 ihc3
                  simp only [htl]
                  simp only [Option.elim, List.getLast?_singleton] at ihc1 ihc2 ihc3 ⊢
                  exact ⟨ihc1, ihc2, ihc3⟩
                | cons s2 srest =>
                  rw [htl] at ihc1 ihc2 ihc3
                  simp only [htl]
                  rw [List.getLast?_cons_cons]
                  cases hlast : (s2 :: srest).getLast? with
                  | none => simp [List.getLast?_cons_cons] at hlast
                  | some sl =>
                    rw [hlast] at ihc1 ihc2 ihc3
                    exact ⟨ihc1, ihc2, ihc3⟩
              constructor
              · -- drop-not-defer at the first unscheduled candidate
                rcases ihd with hl | ⟨p, hp, hrest⟩
                · left
                  simp [hl]
                · right
                  exact ⟨p, by simpa using hp, hrest⟩
              · -- monotone starts under nonnegative durations
                intro hdur
                have hdpoi : 0 ≤ dur := hdur poi (List.mem_cons_self poi rest) dur hdurp
                have htge : (5 : ℤ) ≤ t := travel_mins_ge_five _ _
                obtain ⟨ihlow, ihchain⟩ :=
                  ihe (fun p hp d hd => hdur p (List.mem_cons_of_mem _ hp) d hd)
                constructor
                · intro sl hsl
                  rcases List.mem_cons.mp hsl with h1 | h1
                  · rw [h1]
                    show st.cur ≤ st.cur + t
                    omega
                  · have := ihlow sl h1
                    show st.cur ≤ sl.start_min
                    simp only at this
                    omega
                · rw [List.chain'_cons']
                  refine ⟨?_, ihchain⟩
                  intro b hb
                  have hbmem : b ∈ tl.1 := List.mem_of_mem_head? hb
                  have := ihlow b hbmem
                  simp only at this
                  show st.cur + t ≤ b.start_min
                  omega

/-! ## `src/services/cost_service.py` — trip-level aggregation -/

/-- The warning strings of `build_cost_summary`, modelled structurally: the
day-cap warning carries the day number and the overage as formatted by
`₹(over):.0f` (round half to even, Python's float formatting); the trip
warning carries the formatted grand total, budget and overage. The two
f-strings have distinct shapes, matching the two constructors. -/
inductive Warning where
  | dayCap : ℤ → ℤ → Warning
  | overBudget : ℤ → ℤ → ℤ → Warning
deriving DecidableEq, Repr

/-- `CostSummary` of `models/schemas.py`. -/
structure CostSummary where
  grand_total : ℚ
  total_budget : ℚ
  within_budget : Bool
  budget_remaining : ℚ
  per_day_avg : ℚ
  transport_mode : String
  warnings : List Warning
deriving DecidableEq, Repr

/-- One iteration of the per-day warning loop of `build_cost_summary`
(lines 17-21): `cap = day.cost_breakdown.get("max_budget")`;
`if cap and day.cost_breakdown["total"] > cap` — a missing cap, and a zero
(falsy) cap, emit nothing. -/
def dayWarning (d : DaySchedule) : Option Warning :=
  match d.cost_breakdown.max_budget with
  | none => none
  | some cap =>
    if cap = 0 then none
    else if cap < d.cost_breakdown.total then
      some (.dayCap d.day_number (roundHalfEven (d.cost_breakdown.total - cap)))
    else none

/-- `build_cost_summary(days, total_budget, transport_mode)` of
`cost_service.py`, lines 9-35. -/
def build_cost_summary (days : List DaySchedule) (total_budget : ℚ)
    (transport_mode : String) : CostSummary :=
  let grand_total := (days.map (fun d => d.cost_breakdown.total)).sum
  let warnings := days.filterMap dayWarning
  let warnings :=
    if total_budget < grand_total then
      warnings ++ [.overBudget (roundHalfEven grand_total)
        (roundHalfEven total_budget) (roundHalfEven (grand_total - total_budget))]
    else warnings
  { grand_total := round2 grand_total
    total_budget := round2 total_budget
    within_budget := decide (grand_total ≤ total_budget)
    budget_remaining := round2 (total_budget - grand_total)
    per_day_avg := round2 (grand_total / max (days.length : ℚ) 1)
    transport_mode := transport_mode
    warnings := warnings }

/-- **C9** (amended). `within_budget` is true exactly when the grand total
(the exact sum of the day totals) is at most the trip budget, and
`budget_remaining` is the trip budget minus the grand total rounded to two
decimals (half to even) — so it equals the exact difference (and may be
negative) whenever that difference is a whole number of hundredths, but not
in general, which is what the unamended "exactly" claimed. -/
theorem c9_within_budget (days : List DaySchedule) (B : ℚ) (mode : String) :
    ((build_cost_summary days B mode).within_budget = true ↔
      (days.map (fun d => d.cost_breakdown.total)).sum ≤ B) ∧
    (build_cost_summary days B mode).budget_remaining =
      round2 (B - (days.map (fun d => d.cost_breakdown.total)).sum) := by
  refine ⟨?_, rfl⟩
  simp [build_cost_summary]

/-- **C2** (amended). A per-day warning for day `n` with rounded overage
`a` is in the cost summary exactly when some day schedule in the list has
day number `n` and a *nonzero* configured cap in its cost breakdown that
its total exceeds, with `a` the rounded overage — a cap of zero is falsy in
`if cap and ...` and never warns, which is what the counterexample shows;
moreover the scheduler itself never writes the `max_budget` key into a
breakdown. Days at or under a cap, or without one, never produce a day-cap
warning. -/
theorem c2_day_cap_warning (days : List DaySchedule) (B : ℚ) (mode : String) :
    (∀ n a, Warning.dayCap n a ∈ (build_cost_summary days B mode).warnings ↔
      ∃ d ∈ days, d.day_number = n ∧ ∃ cap,
        d.cost_breakdown.max_budget = some cap ∧ cap ≠ 0 ∧
        cap < d.cost_breakdown.total ∧
        a = roundHalfEven (d.cost_breakdown.total - cap)) ∧
    (∀ (D : DistFn) (pois : List POI) (dc : DayConstraint) (m : String)
        (hlat hlon : ℚ) (s : DaySchedule),
      schedule_day D pois dc m hlat hlon = some s →
      s.cost_breakdown.max_budget = none) := by
  constructor
  · intro n a
    have hmem : Warning.dayCap n a ∈ (build_cost_summary days B mode).warnings ↔
        Warning.dayCap n a ∈ days.filterMap dayWarning := by
      simp only [build_cost_summary]
      by_cases h : B < (days.map (fun d => d.cost_breakdown.total)).sum
      · rw [if_pos h]
        simp
      · rw [if_neg h]
    rw [hmem, List.mem_filterMap]
    constructor
    · rintro ⟨d, hd, hw⟩
      refine ⟨d, hd, ?_⟩
      rw [dayWarning] at hw
      cases hcap : d.cost_breakdown.max_budget with
      | none => simp only [hcap] at hw; simp at hw
      | some cap =>
        simp only [hcap] at hw
        by_cases h0 : cap = 0
        · rw [if_pos h0] at hw; simp at hw
        · rw [if_neg h0] at hw
          by_cases hover : cap < d.cost_breakdown.total
          · rw [if_pos hover] at hw
            simp only [Option.some.injEq, Warning.dayCap.injEq] at hw
            exact ⟨hw.1, cap, rfl, h0, hover, hw.2.symm⟩
          · rw [if_neg hover] at hw; simp at hw
    · rintro ⟨d, hd, hn, cap, hcap, h0, hover, ha⟩
      refine ⟨d, hd, ?_⟩
      simp only [dayWarning, hcap]
      rw [if_neg h0, if_pos hover, hn, ha]
  · intro D pois dc m hlat hlon s hs
    simp only [schedule_day, Option.bind_eq_bind, Option.bind_eq_some,
      Option.pure_def, Option.some.injEq] at hs
    obtain ⟨startT, -, endT, -, res, -, hset⟩ := hs
    rw [← hset]

/-- **C4** (amended). For every day schedule the scheduler produces:
every emitted slot's departure time is at or before the day's end time, the
emitted slots are an initial prefix of the route-ordered pool, and when
that prefix is proper the first remaining candidate's computed departure
time exceeds the day end time — scheduling stops there and the candidate is
dropped, not deferred; moreover, provided every input POI's parsed visit
duration is nonnegative, the slots' start times are non-decreasing in
emission order. (The unamended unconditional monotonicity fails on a
negative stored duration: see the counterexample.) -/
theorem c4_day_window_and_stop (D : DistFn) (pois : List POI)
    (dc : DayConstraint) (mode : String) (hlat hlon : ℚ) (s : DaySchedule)
    (hs : schedule_day D pois dc mode hlat hlon = some s) :
    ∃ startT endT, parse_time dc.start_time = some startT ∧
      parse_time dc.end_time = some endT ∧
      (∀ sl ∈ s.slots, sl.end_min ≤ endT) ∧
      s.slots.map (fun sl => sl.poi_id) =
        ((routedPool D pois dc mode hlat hlon).take s.slots.length).map
          (fun p => p.poi_id) ∧
      (s.slots.length = (routedPool D pois dc mode hlat hlon).length ∨
        ∃ p, (routedPool D pois dc mode hlat hlon)[s.slots.length]? = some p ∧
          ∃ fee dur, pyFloat0 p.entry_fee = some fee ∧
            pyInt60 p.duration_minutes = some dur ∧
            endT < ((s.slots.getLast?).elim startT (fun sl => sl.end_min)) +
              travel_mins
                (D ((s.slots.getLast?).elim hlat (fun sl => sl.lat))
                   ((s.slots.getLast?).elim hlon (fun sl => sl.lon))
                   p.lat p.lon)
                (effectiveMode dc.transport_override mode) + dur) ∧
      ((∀ p ∈ pois, ∀ d, pyInt60 p.duration_minutes = some d → 0 ≤ d) →
        s.slots.Chain' (fun a b => a.start_min ≤ b.start_min)) := by
  simp only [schedule_day, Option.bind_eq_bind, Option.bind_eq_some,
    Option.pure_def, Option.some.injEq] at hs
  obtain ⟨startT, hst, endT, hen, res, hloop, hset⟩ := hs
  obtain ⟨ha, hb, ⟨hc1, hc2, hc3⟩, hd, he⟩ := schedLoop_spec _ _ _ _ _ _ hloop
  have hslots : s.slots = res.1 := by rw [← hset]
  refine ⟨startT, endT, hst, hen, ?_, ?_, ?_, ?_⟩
  · rw [hslots]; exact ha
  · rw [hslots]; exact hb
  · rw [hslots]
    rcases hd with hl | ⟨p, hp, fee, dur, hfee, hdur, hcond⟩
    · exact Or.inl hl
    · refine Or.inr ⟨p, hp, fee, dur, hfee, hdur, ?_⟩
      rw [hc1, hc2, hc3] at hcond
      exact hcond
  · intro hdur
    rw [hslots]
    refine (he ?_).2
    intro p hp d hd
    have hmem : p ∈ pois := by
      have h1 := optimize_route_greedy_subset D
        ((pois.take ((PACE_STOPS dc.pace).2 * 2)).take (PACE_STOPS dc.pace).2)
        hlat hlon (effectiveMode dc.transport_override mode) p hp
      exact List.take_subset _ _ (List.take_subset _ _ h1)
    exact hdur p hmem d hd

/-- Positivity of every configured (or default) transport speed. -/
theorem speed_pos (mode : String) : 0 < (TRANSPORT_SPEED mode).getD 20 := by
  rw [TRANSPORT_SPEED.eq_def]
  split <;> norm_num

/-- Truncation toward zero is the floor on nonnegative rationals. -/
theorem pyTrunc_eq_floor (q : ℚ) (h : 0 ≤ q) : pyTrunc q = ⌊q⌋ := by
  rw [pyTrunc, Rat.floor_def,
    Int.tdiv_eq_ediv (Rat.num_nonneg.mpr h) (Int.natCast_nonneg q.den)]

/-- **C10**. The scheduler's inter-stop travel time is
`max(5, ⌊dist / speed × 60⌋)` minutes for the mode's speed (20 km/h when
unknown) — never below five minutes — while the travel-matrix fallback
converts the same leg with the pure `dist / 20 × 60` formula and no floor:
at one kilometre by `auto` (speed 20) the matrix fallback gives 3 minutes
and the scheduler gives 5, so the two disagree on the same leg. -/
theorem c10_travel_time_minimum (dist : ℚ) (mode : String) (hdist : 0 ≤ dist) :
    travel_mins dist mode = max 5 ⌊dist / (TRANSPORT_SPEED mode).getD 20 * 60⌋ ∧
    5 ≤ travel_mins dist mode ∧
    _fallback_matrix (fun _ _ _ _ => 1) [(0, 0), (1, 1)] 0 1 = 3 ∧
    travel_mins 1 "auto" = 5 ∧
    _fallback_matrix (fun _ _ _ _ => 1) [(0, 0), (1, 1)] 0 1 ≠
      ((travel_mins 1 "auto" : ℤ) : ℚ) := by
  have hformula : travel_mins dist mode =
      max 5 ⌊dist / (TRANSPORT_SPEED mode).getD 20 * 60⌋ := by
    rw [travel_mins, pyTrunc_eq_floor]
    exact mul_nonneg (div_nonneg hdist (le_of_lt (speed_pos mode))) (by norm_num)
  have hfb : _fallback_matrix (fun _ _ _ _ => 1) [(0, 0), (1, 1)] 0 1 = 3 := by
    rw [_fallback_matrix]
    norm_num
  have hauto : travel_mins 1 "auto" = 5 := by
    rw [travel_mins]
    have hsp : (TRANSPORT_SPEED "auto").getD 20 = 20 := rfl
    rw [hsp, pyTrunc_eq_floor ((1:ℚ) / 20 * 60) (by norm_num)]
    have : ((1:ℚ) / 20 * 60) = 3 := by norm_num
    rw [this]
    have h3 : ⌊(3:ℚ)⌋ = 3 := by
      norm_num
    rw [h3]
    decide
  refine ⟨hformula, ?_, hfb, hauto, ?_⟩
  · rw [hformula]; exact le_max_left 5 _
  · rw [hfb, hauto]
    norm_num

/-! ## `src/services/planner.py` — trip orchestration -/

/-- `TripRequest` of `models/schemas.py` (the fields `generate_trip`
reads), with its pydantic defaults. -/
structure TripRequest where
  package_id : String
  city : String := "Chennai"
  num_days : ℕ := 1
  budget_band : String := "economy"
  hotel_lat : Option ℚ := some (130827/10000)
  hotel_lon : Option ℚ := some (802707/10000)
  overrides : Overrides := {}
  day_constraints : List DayConstraint := []

/-- `req.hotel_lat or 13.0827`: Python `or` replaces both `None` and a
falsy `0.0` coordinate by the default. -/
def pyOrQ (o : Option ℚ) (dflt : ℚ) : ℚ :=
  match o with
  | none => dflt
  | some q => if q = 0 then dflt else q

/-- `get_poi_by_ids(poi_ids, city)` of `poi_service.py`, lines 214-226:
point lookup of each id in request order, skipping ids with no document. -/
def get_poi_by_ids (catalog : List POI) (poi_ids : List String) : List POI :=
  poi_ids.filterMap (fun pid => catalog.find? (fun p => p.poi_id == pid))

/-- `user_day_map.get(day_num, DayConstraint(...))` of `generate_trip`,
lines 27 and 33-38: the dict comprehension keeps the last constraint per
day number; a missing day synthesizes one from the trip config. -/
def dcFor (req : TripRequest) (cfg : Config) (day_num : ℤ) : DayConstraint :=
  match req.day_constraints.reverse.find? (fun dc => dc.day_number == day_num) with
  | some dc => dc
  | none =>
    { day_number := day_num, start_time := cfg.start_time
      end_time := cfg.end_time, pace := cfg.pace }

/-- `dc.max_budget or config["budget_per_day"]` (line 52) — Python `or`
also replaces a zero cap by the trip default. -/
def dayBudget (dc : DayConstraint) (cfg : Config) : ℚ :=
  match dc.max_budget with
  | none => cfg.budget_per_day
  | some b => if b = 0 then cfg.budget_per_day else b

/-- Step 4 of the day loop (lines 51-56): when the day total exceeds the
day budget, ask the text-generation collaborator (the parameter `suggest`)
for advice and store it under the `budget_warning` key of the breakdown.
Slots are untouched. -/
def applyBudgetFix (suggest : ℚ → DaySchedule → String) (cfg : Config)
    (dc : DayConstraint) (ds : DaySchedule) : DaySchedule :=
  if dayBudget dc cfg < ds.cost_breakdown.total then
    { ds with
      cost_breakdown := { ds.cost_breakdown with
        budget_warning := some (suggest (ds.cost_breakdown.total - dayBudget dc cfg) ds) } }
  else ds

/-- The POI ids scheduled in a day. -/
def slotIds (d : DaySchedule) : List String := d.slots.map (fun sl => sl.poi_id)

/-- The `for day_num in range(1, num_days + 1)` loop of `generate_trip`
(lines 31-62), recursing on the number of remaining days (`fuel`). `used`
is the cross-day exclusion set (a Python set observed only through
membership and insertion, modelled as a list). -/
def tripLoop (D : DistFn) (suggest : ℚ → DaySchedule → String)
    (catalog : List POI) (req : TripRequest) (cfg : Config)
    (hlat hlon : ℚ) : ℤ → ℕ → List String → Option (List DaySchedule)
  | _, 0, _ => some []
  | day_num, fuel + 1, used => do
    let dc := dcFor req cfg day_num
    let all_excluded := used ++ dc.excluded_pois
    let candidates ← filter_pois cfg catalog all_excluded
    let fixed := get_poi_by_ids catalog dc.fixed_pois
    let pool := fixed ++
      candidates.filter (fun p => !(dc.fixed_pois.contains p.poi_id))
    let day_sched ← schedule_day D pool dc cfg.transport_mode hlat hlon
    let day_sched := applyBudgetFix suggest cfg dc day_sched
    let rest ← tripLoop D suggest catalog req cfg hlat hlon (day_num + 1) fuel
      (used ++ slotIds day_sched)
    pure (day_sched :: rest)

/-- `generate_trip(req)` of `planner.py`, lines 14-88: resolve the
configuration, run the day loop threading the cross-day exclusion set, and
build the trip-level cost summary over `budget_per_day * num_days`. The
externally produced `trip_id` and LLM trip summary of the final
`ItineraryResponse` are opaque I/O and omitted: the returned pair is the
response's `days` list and its `cost_summary`. -/
def generate_trip (D : DistFn) (suggest : ℚ → DaySchedule → String)
    (catalog : List POI) (req : TripRequest) :
    Option (List DaySchedule × CostSummary) := do
  let cfg := resolve_config req.package_id req.budget_band req.overrides
  let hlat := pyOrQ req.hotel_lat (130827/10000)
  let hlon := pyOrQ req.hotel_lon (802707/10000)
  let days ← tripLoop D suggest catalog req cfg hlat hlon 1 req.num_days []
  pure (days,
    build_cost_summary days (cfg.budget_per_day * req.num_days) cfg.transport_mode)

/-- The budget-fix step never changes the scheduled slots. -/
theorem applyBudgetFix_slotIds (suggest : ℚ → DaySchedule → String)
    (cfg : Config) (dc : DayConstraint) (ds : DaySchedule) :
    slotIds (applyBudgetFix suggest cfg dc ds) = slotIds ds := by
  rw [applyBudgetFix]
  split <;> rfl

/-- Every id scheduled by `schedule_day` belongs to a POI of the input
pool. -/
theorem schedule_day_ids {D : DistFn} {pois : List POI} {dc : DayConstraint}
    {mode : String} {hlat hlon : ℚ} {s : DaySchedule}
    (hs : schedule_day D pois dc mode hlat hlon = some s) :
    ∀ pid ∈ slotIds s, ∃ p ∈ pois, p.poi_id = pid := by
  intro pid hpid
  simp only [schedule_day, Option.bind_eq_bind, Option.bind_eq_some,
    Option.pure_def, Option.some.injEq] at hs
  obtain ⟨startT, -, endT, -, res, hloop, hset⟩ := hs
  obtain ⟨-, hb, -, -, -⟩ := schedLoop_spec _ _ _ _ _ _ hloop
  rw [slotIds, ← hset] at hpid
  have hpid2 : pid ∈ res.1.map (fun sl => sl.poi_id) := hpid
  rw [hb] at hpid2
  obtain ⟨p, hp, hpp⟩ := List.mem_map.mp hpid2
  have hp2 : p ∈ routedPool D pois dc mode hlat hlon := List.take_subset _ _ hp
  simp only [routedPool] at hp2
  have hp3 := optimize_route_greedy_subset _ _ _ _ _ p hp2
  exact ⟨p, List.take_subset _ _ (List.take_subset _ _ hp3), hpp⟩

/-- Members of the filtered candidate list are not excluded. -/
theorem filter_pois_not_excluded {cfg : Config} {catalog : List POI}
    {excluded : List String} {out : List POI}
    (h : filter_pois cfg catalog excluded = some out) :
    ∀ p ∈ out, ¬ p.poi_id ∈ excluded := by
  intro p hp
  have hhard := filter_pois_mem_hard_pass h p hp
  simp only [hard_pass, Bool.and_eq_true] at hhard
  obtain ⟨⟨⟨⟨hex, -⟩, -⟩, -⟩, -⟩ := hhard
  simp only [Bool.not_eq_true'] at hex
  intro hmem
  rw [List.contains, List.elem_eq_mem] at hex
  simp only [decide_eq_false_iff_not] at hex
  exact hex hmem

/-- Every POI fetched for the fixed-POI list carries one of the requested
ids. -/
theorem get_poi_by_ids_mem {catalog : List POI} {ids : List String} :
    ∀ p ∈ get_poi_by_ids catalog ids, p.poi_id ∈ ids := by
  intro p hp
  rw [get_poi_by_ids] at hp
  obtain ⟨pid, hpid, hfind⟩ := List.mem_filterMap.mp hp
  have hpred := List.find?_some hfind
  simp only [beq_iff_eq] at hpred
  rw [hpred]
  exact hpid

/-- Cross-day invariant of the day loop: any id scheduled on day `k` of the
produced suffix either is in that day's fixed-POI list, or is fresh — not
in the incoming exclusion set and not scheduled on any earlier day of the
suffix. -/
theorem tripLoop_spec (D : DistFn) (suggest : ℚ → DaySchedule → String)
    (catalog : List POI) (req : TripRequest) (cfg : Config) (hlat hlon : ℚ) :
    ∀ (fuel : ℕ) (day0 : ℤ) (used : List String) (days : List DaySchedule),
    tripLoop D suggest catalog req cfg hlat hlon day0 fuel used = some days →
    ∀ (k : ℕ) (d : DaySchedule), days[k]? = some d →
    ∀ pid ∈ slotIds d,
      pid ∈ (dcFor req cfg (day0 + k)).fixed_pois ∨
      (pid ∉ used ∧ ∀ (k2 : ℕ) (d2 : DaySchedule), k2 < k → days[k2]? = some d2 →
        pid ∉ slotIds d2) := by
  intro fuel
  induction fuel with
  | zero =>
    intro day0 used days h k d hk
    simp only [tripLoop, Option.some.injEq] at h
    subst h
    simp at hk
  | succ n ih =>
    intro day0 used days h k d hk pid hpid
    simp only [tripLoop, Option.bind_eq_bind] at h
    cases hc : filter_pois cfg catalog (used ++ (dcFor req cfg day0).excluded_pois) with
    | none => rw [hc] at h; simp at h
    | some candidates =>
      rw [hc] at h
      simp only [Option.some_bind] at h
      cases hsd : schedule_day D
          (get_poi_by_ids catalog (dcFor req cfg day0).fixed_pois ++
            candidates.filter
              (fun p => !((dcFor req cfg day0).fixed_pois.contains p.poi_id)))
          (dcFor req cfg day0) cfg.transport_mode hlat hlon with
      | none => rw [hsd] at h; simp at h
      | some ds =>
        rw [hsd] at h
        simp only [Option.some_bind] at h
        cases hrest : tripLoop D suggest catalog req cfg hlat hlon (day0 + 1) n
            (used ++ slotIds (applyBudgetFix suggest cfg (dcFor req cfg day0) ds)) with
        | none => rw [hrest] at h; simp at h
        | some rest =>
          rw [hrest] at h
          simp only [Option.some_bind, Option.pure_def, Option.some.injEq] at h
          subst h
          cases k with
          | zero =>
            simp only [List.getElem?_cons_zero, Option.some.injEq] at hk
            subst hk
            rw [applyBudgetFix_slotIds] at hpid
            obtain ⟨p, hp, hpp⟩ := schedule_day_ids hsd pid hpid
            rcases List.mem_append.mp hp with hfix | hcand
            · left
              have hin := get_poi_by_ids_mem p hfix
              rw [hpp] at hin
              simpa using hin
            · right
              have hmemc : p ∈ candidates := List.mem_of_mem_filter hcand
              have hnex := filter_pois_not_excluded hc p hmemc
              constructor
              · intro hused
                exact hnex (List.mem_append_left _ (hpp ▸ hused))
              · intro k2 d2 hk2 _
                exact absurd hk2 (Nat.not_lt_zero k2)
          | succ k =>
            simp only [List.getElem?_cons_succ] at hk
            have hih := ih (day0 + 1) _ rest hrest k d hk pid hpid
            rcases hih with hfix | ⟨hnotused, hprev⟩
            · left
              have hcast : day0 + 1 + (k : ℤ) = day0 + ((k + 1 : ℕ) : ℤ) := by
                push_cast
                ring
              rwa [hcast] at hfix
            · right
              constructor
              · intro hu
                exact hnotused (List.mem_append_left _ hu)
              · intro k2 d2 hk2 hd2
                cases k2 with
                | zero =>
                  simp only [List.getElem?_cons_zero, Option.some.injEq] at hd2
                  subst hd2
                  intro hmem
                  exact hnotused (List.mem_append_right _ hmem)
                | succ k2 =>
                  simp only [List.getElem?_cons_succ] at hd2
                  exact hprev k2 d2 (by omega) hd2

/-- **C3**. In every trip the orchestrator produces, a POI id appearing in
the time slots of two distinct days must be in the later day's fixed-POI
list: cross-day exclusivity holds for every POI that was not explicitly
forced in, and fixed POIs are exactly the exemption. -/
theorem c3_cross_day_exclusivity (D : DistFn)
    (suggest : ℚ → DaySchedule → String) (catalog : List POI)
    (req : TripRequest) (days : List DaySchedule) (summary : CostSummary)
    (hgen : generate_trip D suggest catalog req = some (days, summary)) :
    ∀ (i j : ℕ) (hi : i < days.length) (hj : j < days.length), i < j →
    ∀ pid, pid ∈ slotIds (days.get ⟨i, hi⟩) → pid ∈ slotIds (days.get ⟨j, hj⟩) →
    pid ∈ (dcFor req (resolve_config req.package_id req.budget_band req.overrides)
      (1 + (j : ℤ))).fixed_pois := by
  intro i j hi hj hij pid hpi hpj
  simp only [generate_trip, Option.bind_eq_bind, Option.bind_eq_some,
    Option.pure_def, Option.some.injEq, Prod.mk.injEq] at hgen
  obtain ⟨days2, hloop, hdays, -⟩ := hgen
  subst hdays
  have hj? : days2[j]? = some (days2.get ⟨j, hj⟩) := by
    rw [List.getElem?_eq_getElem hj]
    rfl
  have hspec := tripLoop_spec D suggest catalog req _ _ _ req.num_days 1 [] days2
    hloop j (days2.get ⟨j, hj⟩) hj? pid hpj
  rcases hspec with hfix | ⟨-, hprev⟩
  · exact hfix
  · have hi? : days2[i]? = some (days2.get ⟨i, hi⟩) := by
      rw [List.getElem?_eq_getElem hi]
      rfl
    exact absurd hpi (hprev i _ hij hi?)

/-! ### Concrete instances: counterexamples and witnesses -/

/-- Witness instance for C10: two kilometres by bus. -/
theorem c10_witness :
    0 ≤ (2 : ℚ) ∧
    travel_mins 2 "bus" = max 5 ⌊(2 : ℚ) / (TRANSPORT_SPEED "bus").getD 20 * 60⌋ ∧
    5 ≤ travel_mins 2 "bus" :=
  ⟨by norm_num, (c10_travel_time_minimum 2 "bus" (by norm_num)).1,
   (c10_travel_time_minimum 2 "bus" (by norm_num)).2.1⟩

/-- The unamended C9 fails: with no days and a budget of a thousandth of a
rupee, `budget_remaining` is the rounded `0`, not the exact difference. -/
theorem c9_counterexample :
    (build_cost_summary [] (1/1000) "auto").budget_remaining ≠ 1/1000 - 0 := by
  have h : (build_cost_summary [] (1/1000) "auto").budget_remaining = 0 := by
    simp only [build_cost_summary, List.map_nil, List.sum_nil]
    norm_num [round2, roundHalfEven]
  rw [h]
  norm_num

/-- A day schedule whose breakdown carries a configured cap of zero. -/
def dayZeroCap : DaySchedule :=
  { day_number := 1, slots := [], total_mins := 0, free_mins := 0
    cost_breakdown := { entry := 100, transport := 0, extras := 0
                        return_transport := 0, total := 100
                        max_budget := some 0 } }

/-- The unamended C2 fails: this day carries a configured cap (zero) and
its total 100 exceeds it, yet the warning list is empty — `if cap and ...`
treats a zero cap as no cap. -/
theorem c2_counterexample :
    dayZeroCap.cost_breakdown.max_budget = some 0 ∧
    dayZeroCap.cost_breakdown.total = 100 ∧ (0 : ℚ) < 100 ∧
    (build_cost_summary [dayZeroCap] 10000 "auto").warnings = [] := by
  refine ⟨rfl, rfl, by norm_num, ?_⟩
  simp only [build_cost_summary, dayZeroCap, dayWarning, List.filterMap_cons,
    List.filterMap_nil, List.map_cons, List.map_nil, List.sum_cons, List.sum_nil]
  norm_num

/-- A day schedule with a nonzero cap its total exceeds. -/
def dayCap50 : DaySchedule :=
  { day_number := 1, slots := [], total_mins := 0, free_mins := 0
    cost_breakdown := { entry := 100, transport := 0, extras := 0
                        return_transport := 0, total := 100
                        max_budget := some 50 } }

/-- Witness instance for the amended C2: a nonzero exceeded cap does warn
with the rounded overage. -/
theorem c2_witness :
    Warning.dayCap 1 50 ∈ (build_cost_summary [dayCap50] 10000 "auto").warnings :=
  ((c2_day_cap_warning [dayCap50] 10000 "auto").1 1 50).mpr
    ⟨dayCap50, List.mem_cons_self _ _, rfl, 50, rfl, by norm_num,
     by norm_num [dayCap50], by norm_num [dayCap50, roundHalfEven]⟩

/-- The heritage/economy configuration with no overrides. -/
def cfgHeritage : Config := resolve_config "pkg-heritage" "economy" {}

/-- A candidate with an unparseable fee and rating and half-unparseable
opening hours. -/
def poiJunk : POI :=
  { poi_id := "p-junk", name := "Mystery", lat := 13, lon := 80
    entry_fee := .junk, rating := .junk, popularity_score := .num 1
    duration_minutes := .absent, category_primary := "temple"
    tags := [], activities := [], wheelchair_accessible := true
    is_open_24hrs := false, opening_hours := .pair .bad (.hm 1200)
    address := "", best_time_to_visit := "" }

/-- Witness instance for C7: the junk-data candidate passes each hard
filter. -/
theorem c7_witness :
    feePass cfgHeritage.max_entry_fee poiJunk = true ∧
    ratingPass cfgHeritage.min_rating poiJunk = true ∧
    _is_open_during poiJunk cfgHeritage.start_time cfgHeritage.end_time = true :=
  ⟨(c7_hard_filters_fail_open cfgHeritage [] poiJunk).1 rfl,
   (c7_hard_filters_fail_open cfgHeritage [] poiJunk).2.1 rfl,
   (c7_hard_filters_fail_open cfgHeritage [] poiJunk).2.2.1
     (Or.inr (Or.inr ⟨.bad, .hm 1200, rfl, Or.inl rfl⟩))⟩

/-- A free beach POI. -/
def poiFree : POI :=
  { poi_id := "p-free", name := "Marina Beach", lat := 13, lon := 80
    entry_fee := .num 0, rating := .num 5, popularity_score := .num 5
    duration_minutes := .num 45, category_primary := "beach"
    tags := ["beach"], activities := [], wheelchair_accessible := true
    is_open_24hrs := true, opening_hours := .absent, address := ""
    best_time_to_visit := "" }

/-- The same POI with an entry fee of 50. -/
def poiPaid : POI :=
  { poiFree with poi_id := "p-paid", entry_fee := .num 50 }

/-- The budget preset with the explicit zero fee override: the regression
configuration of the claim. -/
def cfgZeroFee : Config :=
  resolve_config "pkg-budget" "economy" { max_entry_fee := some 0 }

/-- Witness instance for C5: with the zero override the paid POI is
dropped and the free one is kept. -/
theorem c5_witness :
    cfgZeroFee.max_entry_fee = 0 ∧
    filter_pois cfgZeroFee [poiFree, poiPaid] [] = some [poiFree] ∧
    (∀ p ∈ [poiFree], ∀ q, pyFloat0 p.entry_fee = some q → q ≤ 0) :=
  ⟨by decide, by decide,
   (c5_zero_max_fee_excludes_paid cfgZeroFee [poiFree, poiPaid] [] [poiFree]
      (by decide) (by decide)).1⟩

/-- A temple POI sharing no tag with the heritage preset. -/
def tpl (n : String) : POI :=
  { poi_id := n, name := n, lat := 13, lon := 80
    entry_fee := .num 10, rating := .num 5, popularity_score := .num 3
    duration_minutes := .num 60, category_primary := "temple"
    tags := ["modern"], activities := [], wheelchair_accessible := true
    is_open_24hrs := true, opening_hours := .absent, address := ""
    best_time_to_visit := "" }

/-- Five category-matching POIs with zero tag score. -/
def pool5 : List POI := [tpl "t1", tpl "t2", tpl "t3", tpl "t4", tpl "t5"]

/-- Witness instance for C6: all five zero-tag-score candidates come back
via fallback-pool promotion. -/
theorem c6_witness :
    cfgHeritage.tags ≠ [] ∧
    filter_pois cfgHeritage pool5 [] = some pool5 ∧
    pool5.Perm
      (if ((queried cfgHeritage pool5).filter (fun p =>
              hard_pass cfgHeritage [] p &&
              decide (0 < _tag_score p cfgHeritage.tags))).isEmpty
       then (queried cfgHeritage pool5).filter (fun p =>
              hard_pass cfgHeritage [] p &&
              decide (_tag_score p cfgHeritage.tags = 0))
       else (queried cfgHeritage pool5).filter (fun p =>
              hard_pass cfgHeritage [] p &&
              decide (0 < _tag_score p cfgHeritage.tags))) :=
  ⟨by decide, by decide,
   c6_fallback_pool_promotion cfgHeritage pool5 [] pool5 (by decide) (by decide)⟩

/-- At distance zero every mode's travel time is the five-minute floor. -/
theorem travel_mins_zero (mode : String) : travel_mins 0 mode = 5 := by
  simp only [travel_mins]
  rw [zero_div, zero_mul]
  rfl

/-- The `auto` transport cost of a zero-length leg is the base fee. -/
theorem transport_cost_zero_auto : transport_cost 0 "auto" = 30 := by
  simp only [transport_cost, TRANSPORT_RATES, Option.getD_some]
  norm_num [round2, roundHalfEven]

/-- A POI whose stored visit duration is negative. -/
def poiNegDur : POI :=
  { poi_id := "neg", name := "Neg", lat := 0, lon := 0
    entry_fee := .num 0, rating := .num 5, popularity_score := .num 0
    duration_minutes := .num (-200), category_primary := "temple"
    tags := [], activities := [], wheelchair_accessible := true
    is_open_24hrs := true, opening_hours := .absent, address := ""
    best_time_to_visit := "" }

/-- A POI with an ordinary one-hour duration. -/
def poiSixty : POI :=
  { poiNegDur with poi_id := "sixty", name := "Sixty"
                   duration_minutes := .num 60 }

/-- A 00:00-10:00 day constraint. -/
def dcSmall : DayConstraint :=
  { day_number := 1, start_time := .hm 0, end_time := .hm 600 }

/-- The unamended C4 fails: with a negative stored duration the scheduler
emits start times 5 and then -190, which are not non-decreasing (both
departures still respect the day end). -/
theorem c4_counterexample :
    ((schedule_day (fun _ _ _ _ => 0) [poiNegDur, poiSixty] dcSmall "auto" 0 0).map
        (fun s => s.slots.map (fun sl => sl.start_min))) = some [5, -190] ∧
    ¬ ((5 : ℤ) ≤ -190) := by
  refine ⟨?_, by decide⟩
  have hd1 : pyInt60 poiNegDur.duration_minutes = some (-200) := by decide
  have hd2 : pyInt60 poiSixty.duration_minutes = some 60 := by decide
  have hfe : pyFloat0 poiNegDur.entry_fee = some 0 := by decide
  have hfe2 : pyFloat0 poiSixty.entry_fee = some 0 := by decide
  have hr1 : pyFloat0 poiNegDur.rating = some 5 := by decide
  have hr2 : pyFloat0 poiSixty.rating = some 5 := by decide
  have hroute : routedPool (fun _ _ _ _ => 0) [poiNegDur, poiSixty] dcSmall "auto" 0 0
      = [poiNegDur, poiSixty] := by
    simp [routedPool, optimize_route_greedy, PACE_STOPS, effectiveMode, dcSmall,
      get_travel_matrix, _fallback_matrix, greedyLoop, pyMin, List.enum,
      List.enumFrom, zero_div, zero_mul]
  simp only [schedule_day, Option.bind_eq_bind]
  rw [hroute]
  simp only [effectiveMode, dcSmall, parse_time, Option.some_bind, schedLoop,
    hd1, hd2, hfe, hfe2, hr1, hr2, travel_mins_zero, Option.pure_def,
    Option.map_some]
  norm_num

/-- The empty-pool day schedule `schedule_day` produces for `dcSmall`. -/
def emptySched : DaySchedule :=
  { day_number := 1, slots := [], total_mins := 5, free_mins := 595
    cost_breakdown := { entry := 0, transport := 30, extras := 0
                        return_transport := 30, total := 30 } }

/-- Witness instance for the amended C4 on a concrete run. -/
theorem c4_witness :
    schedule_day (fun _ _ _ _ => 0) [] dcSmall "auto" 0 0 = some emptySched ∧
    List.Chain' (fun a b : TimeSlot => a.start_min ≤ b.start_min)
      emptySched.slots := by
  have heq : schedule_day (fun _ _ _ _ => 0) [] dcSmall "auto" 0 0
      = some emptySched := by
    have hroute : routedPool (fun _ _ _ _ => 0) [] dcSmall "auto" 0 0 = [] := rfl
    simp only [schedule_day, Option.bind_eq_bind]
    rw [hroute]
    simp only [effectiveMode, dcSmall, parse_time, Option.some_bind, schedLoop,
      travel_mins_zero, transport_cost_zero_auto, Option.pure_def, emptySched]
    norm_num [round2, roundHalfEven]
  have h := c4_day_window_and_stop (fun _ _ _ _ => 0) [] dcSmall "auto" 0 0
    emptySched heq
  obtain ⟨st, en, -, -, -, -, -, hchain⟩ := h
  exact ⟨heq, hchain (fun p hp => absurd hp (List.not_mem_nil p))⟩

/-- A heritage-tagged temple POI at (1, 1). -/
def poiX : POI :=
  { poi_id := "x", name := "Fort", lat := 1, lon := 1
    entry_fee := .num 0, rating := .num 5, popularity_score := .num 1
    duration_minutes := .num 60, category_primary := "temple"
    tags := ["fort"], activities := [], wheelchair_accessible := true
    is_open_24hrs := true, opening_hours := .absent, address := ""
    best_time_to_visit := "" }

/-- The user constraint forcing `x` into day 2. -/
def dc2X : DayConstraint :=
  { day_number := 2, start_time := .hm 540, end_time := .hm 1140
    fixed_pois := ["x"] }

/-- A two-day heritage trip with the hotel at (1, 1). -/
def reqX : TripRequest :=
  { package_id := "pkg-heritage", num_days := 2
    hotel_lat := some 1, hotel_lon := some 1
    day_constraints := [dc2X] }

/-- The constraint `generate_trip` synthesizes for day 1 of `reqX`. -/
def dcSyn1 : DayConstraint :=
  { day_number := 1, start_time := .hm 540, end_time := .hm 1200
    pace := .normal }

/-- The slot scheduled for `poiX` (same times on both days). -/
def slotX : TimeSlot :=
  { poi_id := poiX.poi_id, name := poiX.name, start_min := 545, end_min := 605
    duration_mins := 60, travel_from_prev_mins := 5
    travel_from_prev_cost := 30, entry_fee := 0, activity_extras := 0
    slot_total := 30, lat := poiX.lat, lon := poiX.lon
    address := poiX.address, activities := poiX.activities, rating := 5
    best_time := poiX.best_time_to_visit }

/-- Day 1 of the witness trip. -/
def ds1X : DaySchedule :=
  { day_number := 1, slots := [slotX], total_mins := 70, free_mins := 590
    cost_breakdown := { entry := 0, transport := 60, extras := 0
                        return_transport := 30, total := 60 } }

/-- Day 2 of the witness trip (shorter window). -/
def ds2X : DaySchedule :=
  { day_number := 2, slots := [slotX], total_mins := 70, free_mins := 530
    cost_breakdown := { entry := 0, transport := 60, extras := 0
                        return_transport := 30, total := 60 } }

/-- The two days of the witness trip. -/
def daysX : List DaySchedule := [ds1X, ds2X]

/-- Witness instance for C3: `x` is scheduled on both days, and the theorem
pins that on day 2's fixed-POI list. -/
theorem c3_witness :
    ((generate_trip (fun _ _ _ _ => 0) (fun _ _ => "") [poiX] reqX).map
        Prod.fst = some daysX) ∧
    "x" ∈ (dcFor reqX (resolve_config reqX.package_id reqX.budget_band
        reqX.overrides) (1 + ((1 : ℕ) : ℤ))).fixed_pois := by
  have hdx : pyInt60 poiX.duration_minutes = some 60 := by decide
  have hfx : pyFloat0 poiX.entry_fee = some 0 := by decide
  have hrx : pyFloat0 poiX.rating = some 5 := by decide
  have hext : activity_extra_cost poiX.activities = 0 := by decide
  have hs1 : schedule_day (fun _ _ _ _ => 0) [poiX] dcSyn1 "auto" 1 1
      = some ds1X := by
    have hroute1 : routedPool (fun _ _ _ _ => 0) [poiX] dcSyn1 "auto" 1 1
        = [poiX] := by
      simp [routedPool, optimize_route_greedy, PACE_STOPS, effectiveMode,
        dcSyn1, greedyLoop, pyMin, List.enum, List.enumFrom]
    simp only [schedule_day, Option.bind_eq_bind]
    rw [hroute1]
    simp only [effectiveMode, dcSyn1, parse_time, Option.some_bind, schedLoop,
      hdx, hfx, hrx, hext, travel_mins_zero, transport_cost_zero_auto,
      Option.pure_def, ds1X, slotX]
    norm_num [round2, roundHalfEven]
  have hs2 : schedule_day (fun _ _ _ _ => 0) [poiX] dc2X "auto" 1 1
      = some ds2X := by
    have hroute2 : routedPool (fun _ _ _ _ => 0) [poiX] dc2X "auto" 1 1
        = [poiX] := by
      simp [routedPool, optimize_route_greedy, PACE_STOPS, effectiveMode,
        dc2X, greedyLoop, pyMin, List.enum, List.enumFrom]
    simp only [schedule_day, Option.bind_eq_bind]
    rw [hroute2]
    simp only [effectiveMode, dc2X, parse_time, Option.some_bind, schedLoop,
      hdx, hfx, hrx, hext, travel_mins_zero, transport_cost_zero_auto,
      Option.pure_def, ds2X, slotX]
    norm_num [round2, roundHalfEven]
  have hbud : cfgHeritage.budget_per_day = 1200 := by decide
  have hfix1 : applyBudgetFix (fun _ _ => "") cfgHeritage dcSyn1 ds1X = ds1X := by
    rw [applyBudgetFix, dayBudget]
    simp only [dcSyn1, hbud]
    norm_num [ds1X]
  have hfix2 : applyBudgetFix (fun _ _ => "") cfgHeritage dc2X ds2X = ds2X := by
    rw [applyBudgetFix, dayBudget]
    simp only [dc2X, hbud]
    norm_num [ds2X]
  have hmode : cfgHeritage.transport_mode = "auto" := by decide
  have hdc1 : dcFor reqX cfgHeritage 1 = dcSyn1 := by decide
  have hdc2 : dcFor reqX cfgHeritage (1 + 1) = dc2X := by decide
  have hf1 : filter_pois cfgHeritage [poiX] [] = some [poiX] := by decide
  have hf2 : filter_pois cfgHeritage [poiX] [poiX.poi_id] = some [] := by decide
  have hgp2 : get_poi_by_ids [poiX] dc2X.fixed_pois = [poiX] := by decide
  have hsl1 : slotIds ds1X = [poiX.poi_id] := rfl
  have hloop : tripLoop (fun _ _ _ _ => 0) (fun _ _ => "") [poiX] reqX
      cfgHeritage 1 1 1 reqX.num_days [] = some daysX := by
    show tripLoop (fun _ _ _ _ => 0) (fun _ _ => "") [poiX] reqX
      cfgHeritage 1 1 1 (1 + 1) [] = some daysX
    simp only [tripLoop, Option.bind_eq_bind]
    rw [hdc1, hmode]
    have hexc1 : dcSyn1.excluded_pois = [] := rfl
    have hfixl1 : dcSyn1.fixed_pois = [] := rfl
    simp only [hexc1, hfixl1, List.append_nil, List.nil_append]
    rw [hf1]
    simp only [Option.some_bind]
    have hg0 : get_poi_by_ids [poiX] [] = ([] : List POI) := rfl
    have hflt0 : [poiX].filter (fun p => !(([] : List String).contains p.poi_id))
        = [poiX] := rfl
    rw [hg0, hflt0]
    simp only [List.nil_append]
    rw [hs1]
    simp only [Option.some_bind]
    rw [hfix1, hsl1]
    rw [hdc2]
    have hexc2 : dc2X.excluded_pois = [] := rfl
    simp only [hexc2, List.append_nil, List.nil_append]
    rw [hf2]
    simp only [Option.some_bind]
    rw [hgp2]
    have hflt2 : ([] : List POI).filter
        (fun p => !(dc2X.fixed_pois.contains p.poi_id)) = [] := rfl
    rw [hflt2]
    simp only [List.append_nil]
    rw [hs2]
    simp only [Option.some_bind]
    rw [hfix2]
    simp only [tripLoop, Option.some_bind, Option.pure_def]
    rfl
  have hgen : ∃ sm, generate_trip (fun _ _ _ _ => 0) (fun _ _ => "") [poiX] reqX
      = some (daysX, sm) := by
    have hcfg : resolve_config reqX.package_id reqX.budget_band reqX.overrides
        = cfgHeritage := rfl
    have hlat : pyOrQ reqX.hotel_lat (130827/10000) = 1 := by decide
    have hlon : pyOrQ reqX.hotel_lon (802707/10000) = 1 := by decide
    refine ⟨build_cost_summary daysX
      (cfgHeritage.budget_per_day * (reqX.num_days : ℚ))
      cfgHeritage.transport_mode, ?_⟩
    simp only [generate_trip, Option.bind_eq_bind, hcfg, hlat, hlon, hloop,
      Option.some_bind, Option.pure_def]
  obtain ⟨sm, hg⟩ := hgen
  constructor
  · rw [hg]
    rfl
  · exact c3_cross_day_exclusivity (fun _ _ _ _ => 0) (fun _ _ => "") [poiX]
      reqX daysX sm hg 0 1 (by decide) (by decide) (by decide) "x"
      (by decide) (by decide)

end TravelPlanner
